import Mathlib

/-!
A verification development for the local search engine of the jira-search
repository (modules `database.py`, `search.py`, `config.py`, plus the limit
handling of `web.py`).  The Python code is shallowly embedded: SQLite tables
become lists of rows, SQL predicates become executable boolean functions with
SQLite's NULL and `LIKE` semantics spelled out, and Python string processing
(the JQL mini-parser) is reproduced on `List Char` / `String`.
-/

namespace JiraSearch

/-! ## ASCII case folding (SQLite `LIKE` folds ASCII case; Python `.lower()` /
`.upper()` restricted to the ASCII inputs used by the code). -/

/-- Fold one ASCII uppercase letter to lowercase; other characters unchanged.
This is SQLite's case folding for `LIKE` and models Python `str.lower` on the
ASCII data handled by the parser. -/
def lowAscii (c : Char) : Char :=
  match c with
  | 'A' => 'a' | 'B' => 'b' | 'C' => 'c' | 'D' => 'd' | 'E' => 'e' | 'F' => 'f'
  | 'G' => 'g' | 'H' => 'h' | 'I' => 'i' | 'J' => 'j' | 'K' => 'k' | 'L' => 'l'
  | 'M' => 'm' | 'N' => 'n' | 'O' => 'o' | 'P' => 'p' | 'Q' => 'q' | 'R' => 'r'
  | 'S' => 's' | 'T' => 't' | 'U' => 'u' | 'V' => 'v' | 'W' => 'w' | 'X' => 'x'
  | 'Y' => 'y' | 'Z' => 'z' | d => d

/-- ASCII uppercasing, models Python `str.upper` on ASCII data. -/
def upAscii (c : Char) : Char :=
  match c with
  | 'a' => 'A' | 'b' => 'B' | 'c' => 'C' | 'd' => 'D' | 'e' => 'E' | 'f' => 'F'
  | 'g' => 'G' | 'h' => 'H' | 'i' => 'I' | 'j' => 'J' | 'k' => 'K' | 'l' => 'L'
  | 'm' => 'M' | 'n' => 'N' | 'o' => 'O' | 'p' => 'P' | 'q' => 'Q' | 'r' => 'R'
  | 's' => 'S' | 't' => 'T' | 'u' => 'U' | 'v' => 'V' | 'w' => 'W' | 'x' => 'X'
  | 'y' => 'Y' | 'z' => 'Z' | d => d

/-- Case folding of a character list. -/
def foldCase (l : List Char) : List Char := l.map lowAscii

/-- Python `value.lower()` on a string (ASCII). -/
def pyLower (s : String) : String := String.mk (s.toList.map lowAscii)

/-- Python `value.upper()` on a string (ASCII). -/
def pyUpper (s : String) : String := String.mk (s.toList.map upAscii)

/-! ## SQLite `LIKE`

`likeMatch p t` decides whether the whole text `t` matches the pattern `p`,
where `%` matches any (possibly empty) character sequence and `_` matches
exactly one character.  Case folding is applied by `sqlLike` before matching,
mirroring SQLite's default ASCII-case-insensitive `LIKE`. -/

/-- Try `f` on every suffix of the list (including the list itself and `[]`). -/
def anySuffix (f : List Char → Bool) : List Char → Bool
  | [] => f []
  | c :: t => f (c :: t) || anySuffix f t

/-- Core `LIKE` matcher on raw character lists (no case folding here). -/
def likeMatch : List Char → List Char → Bool
  | [], t => t.isEmpty
  | c :: p, t =>
    if c = '%' then anySuffix (likeMatch p) t
    else
      match t with
      | [] => false
      | d :: t' => (if c = '_' then true else c = d) && likeMatch p t'

/-- SQLite `text LIKE pattern` (default `PRAGMA case_sensitive_like=OFF`):
both sides are ASCII-case-folded, then matched. -/
def sqlLikeL (pat text : List Char) : Bool :=
  likeMatch (foldCase pat) (foldCase text)

/-- String-level `LIKE`; `none` (SQL NULL) never matches. -/
def sqlLike (pat : String) (text : Option String) : Bool :=
  match text with
  | none => false
  | some t => sqlLikeL pat.toList t.toList

/-! ## SQLite comparison on nullable TEXT values.

All columns the JQL interpreter touches are compared as TEXT with the BINARY
collation; a NULL operand makes the comparison SQL-NULL, which a `WHERE`
clause treats as false. -/

/-- SQL `col = v` for a TEXT column (NULL compares to nothing). -/
def sqlEq (col : Option String) (v : String) : Bool :=
  match col with
  | none => false
  | some s => s = v

/-- SQL `col op v` for `=`, `!=`, `>`, `>=`, `<`, `<=` (TEXT comparison);
any other operator string yields false (unreachable from the parser). -/
def sqlCmp (col : Option String) (op : String) (v : String) : Bool :=
  match col with
  | none => false
  | some s =>
    match op with
    | "=" => s = v
    | "!=" => s ≠ v
    | ">" => v < s
    | ">=" => v < s ∨ v = s
    | "<" => s < v
    | "<=" => s < v ∨ s = v
    | _ => false

/-- SQL `LIMIT limit OFFSET offset` applied to an ordered row list.  SQLite
treats a negative OFFSET as zero and a negative LIMIT as "no limit". -/
def sqlPage {α : Type} (limit offset : Int) (l : List α) : List α :=
  let dropped := l.drop offset.toNat
  if limit < 0 then dropped else dropped.take limit.toNat

/-! ## Sorting (`ORDER BY updated DESC`).

Insertion sort with a boolean "goes before" relation; SQLite leaves tie order
unspecified, the model picks the stable order. -/

/-- Insert `a` in front of the first element it should precede. -/
def sortedInsert {α : Type} (le : α → α → Bool) (a : α) : List α → List α
  | [] => [a]
  | b :: l => if le a b then a :: b :: l else b :: sortedInsert le a l

/-- Insertion sort by a boolean "goes before" relation. -/
def sortBy {α : Type} (le : α → α → Bool) : List α → List α
  | [] => []
  | a :: l => sortedInsert le a (sortBy le l)

/-- Ordering key for `ORDER BY updated DESC`: larger text first, NULLs last
(SQLite sorts NULL first ascending, hence last descending). -/
def updatedDescLe (a b : Option String) : Bool :=
  match a, b with
  | none, none => true
  | none, some _ => false
  | some _, none => true
  | some x, some y => y < x ∨ y = x

/-! ## Python string helpers used by the parser. -/

/-- Python `str.strip()` on a character list. -/
def pyStripL (l : List Char) : List Char :=
  ((l.dropWhile Char.isWhitespace).reverse.dropWhile Char.isWhitespace).reverse

/-- Python `str.strip()`. -/
def pyStrip (s : String) : String := String.mk (pyStripL s.toList)

/-- Is the character a single or double quote (for Python `strip("\x22'")`). -/
def isQuoteChar (c : Char) : Bool := c = '"' || c = '\''

/-- Python `value.strip("\x22'")`: drop quote characters from both ends. -/
def dropQuotesL (l : List Char) : List Char :=
  ((l.dropWhile isQuoteChar).reverse.dropWhile isQuoteChar).reverse

/-- Python `value.strip("\x22'")` on strings. -/
def dropQuotes (s : String) : String := String.mk (dropQuotesL s.toList)

/-- Substring test on lists: does `needle` occur contiguously in `hay`? -/
def isSubL (needle hay : List Char) : Bool :=
  anySuffix (fun s => needle.isPrefixOf s) hay

/-- Substring test (Python `needle in haystack`). -/
def containsSub (haystack needle : String) : Bool :=
  isSubL needle.toList haystack.toList

/-- Python `s.startswith(pre)`. -/
def pyStartsWith (s pre : String) : Bool := pre.toList.isPrefixOf s.toList

/-- Python `s.endswith(suf)`. -/
def pyEndsWith (s suf : String) : Bool :=
  suf.toList.reverse.isPrefixOf s.toList.reverse

/-! ## The issues table (`database.py`, `_create_issues_table`)

One row of the `issues` table, for the deployed field configuration: the
default core fields (description, status, priority, assignee, reporter,
created, updated, comment, labels, components — plus the always-present
project/issue-type columns) and the four custom fields hard-coded in
`search.py`'s `JQL_FIELD_MAPPING`.  TEXT columns are `Option String`
(`none` = SQL NULL); `custom_12322244` (REAL) is also modelled as TEXT since
the claims only touch it through TEXT-style comparison. -/

structure Row where
  key : String
  summary : String
  description : Option String
  status_id : Option String
  status_name : Option String
  priority_id : Option String
  priority_name : Option String
  assignee_key : Option String
  assignee_name : Option String
  assignee_display_name : Option String
  reporter_key : Option String
  reporter_name : Option String
  reporter_display_name : Option String
  created : Option String
  updated : Option String
  comments : Option String
  labels : Option String
  components : Option String
  project_key : Option String
  project_name : Option String
  issue_type : Option String
  custom_12313240 : Option String
  custom_12320040 : Option String
  custom_12316752 : Option String
  custom_12322244 : Option String
  raw_json : Option String
  synced_at : Option String
  is_deleted : Option Bool
  deleted_at : Option String
  deriving DecidableEq, Repr

/-- The `issues` table: rows in rowid order. -/
abbrev Table := List Row

/-- The deletion filter used by `search_issues`:
`(is_deleted IS NULL OR is_deleted = FALSE)`. -/
def notDeleted (r : Row) : Bool := r.is_deleted ≠ some true

/-- Column valuation used by the compiled JQL/regex SQL (only columns named in
`JQL_FIELD_MAPPING` or the regex column list are ever read). -/
def colVal (r : Row) : String → Option String
  | "key" => some r.key
  | "summary" => some r.summary
  | "description" => r.description
  | "status_name" => r.status_name
  | "priority_name" => r.priority_name
  | "assignee_display_name" => r.assignee_display_name
  | "reporter_display_name" => r.reporter_display_name
  | "created" => r.created
  | "updated" => r.updated
  | "comments" => r.comments
  | "labels" => r.labels
  | "components" => r.components
  | "project_key" => r.project_key
  | "issue_type" => r.issue_type
  | "custom_12313240" => r.custom_12313240
  | "custom_12320040" => r.custom_12320040
  | "custom_12316752" => r.custom_12316752
  | "custom_12322244" => r.custom_12322244
  | _ => none

/-- Sort rows by `ORDER BY updated DESC`. -/
def orderByUpdatedDesc (l : List Row) : List Row :=
  sortBy (fun a b => updatedDescLe a.updated b.updated) l

/-! ## `mark_issue_deleted` (`database.py` lines 641-656)

`UPDATE issues SET is_deleted = TRUE, deleted_at = ? WHERE key = ?`;
`now` is `datetime.now().isoformat()`. -/

/-- Effect of the UPDATE on a single row. -/
def markRow (issue_key now : String) (r : Row) : Row :=
  if r.key = issue_key then { r with is_deleted := some true, deleted_at := some now }
  else r

/-- Model of `mark_issue_deleted(issue_key)`: a keyed UPDATE touches every row whose
key matches (zero or one row given key uniqueness) and raises nothing when no
row matches. -/
def markIssueDeleted (db : Table) (issue_key now : String) : Table :=
  List.map (markRow issue_key now) db

/-! ## `upsert_issue_with_stats` (`database.py` lines 354-449)

The INSERT OR REPLACE lists the key, summary, the configured core-field
columns, project/issue-type, the custom-field columns and `raw_json`; the
remaining columns take their DDL defaults (`synced_at` CURRENT_TIMESTAMP,
`is_deleted` FALSE, `deleted_at` NULL).  REPLACE removes any row that
conflicts on the primary key `key` and inserts the new row with a fresh
rowid (modelled: filtered out, appended at the end). -/

/-- The column values supplied to the INSERT (the output of
`_process_issue_data` plus the serialized raw record). -/
structure IssueContent where
  key : String
  summary : String
  description : Option String
  status_id : Option String
  status_name : Option String
  priority_id : Option String
  priority_name : Option String
  assignee_key : Option String
  assignee_name : Option String
  assignee_display_name : Option String
  reporter_key : Option String
  reporter_name : Option String
  reporter_display_name : Option String
  created : Option String
  updated : Option String
  comments : Option String
  labels : Option String
  components : Option String
  project_key : Option String
  project_name : Option String
  issue_type : Option String
  custom_12313240 : Option String
  custom_12320040 : Option String
  custom_12316752 : Option String
  custom_12322244 : Option String
  raw_json : Option String
  deriving DecidableEq, Repr

/-- The row stored by the INSERT OR REPLACE: every listed column comes from
the new content only, the unlisted columns take their DDL defaults. -/
def rowOfContent (c : IssueContent) (now : String) : Row :=
  { key := c.key, summary := c.summary, description := c.description,
    status_id := c.status_id, status_name := c.status_name,
    priority_id := c.priority_id, priority_name := c.priority_name,
    assignee_key := c.assignee_key, assignee_name := c.assignee_name,
    assignee_display_name := c.assignee_display_name,
    reporter_key := c.reporter_key, reporter_name := c.reporter_name,
    reporter_display_name := c.reporter_display_name,
    created := c.created, updated := c.updated, comments := c.comments,
    labels := c.labels, components := c.components,
    project_key := c.project_key, project_name := c.project_name,
    issue_type := c.issue_type,
    custom_12313240 := c.custom_12313240, custom_12320040 := c.custom_12320040,
    custom_12316752 := c.custom_12316752, custom_12322244 := c.custom_12322244,
    raw_json := c.raw_json,
    synced_at := some now, is_deleted := some false, deleted_at := none }

/-- Model of `upsert_issue_with_stats`: `SELECT key FROM issues WHERE key = ?` decides
the return value, then `INSERT OR REPLACE` stores the new row.  Returns
`(was_existing, new_table)`. -/
def upsertIssueWithStats (db : Table) (c : IssueContent) (now : String) :
    Bool × Table :=
  (db.any (fun r => r.key = c.key),
   db.filter (fun r => r.key ≠ c.key) ++ [rowOfContent c now])

/-- Keys of a table are pairwise distinct (the `key TEXT PRIMARY KEY`
invariant). -/
def nodupKeys (db : Table) : Prop := (db.map Row.key).Nodup

/-! ## `search_issues` (`database.py` lines 789-884): the natural-language
(free-text) path.

A query shaped like an exact issue key (`^[A-Z]+-\d+$` on the stripped text)
is first tried as a direct `key = ?` lookup; only when that returns no rows
does the FTS5 relevance search run.  FTS5's `MATCH` and `rank` have no local
semantics, so they enter the model as parameters: `ftsMatch q r` says whether
row `r`'s shadow entry matches the sanitized query `q`, and `rankLe` is the
`ORDER BY rank` comparison. -/

/-- Is `c` an ASCII uppercase letter. -/
def isUpperAZ (c : Char) : Bool := decide ('A' ≤ c) && decide (c ≤ 'Z')

/-- Python `re.match(r'^[A-Z]+-\d+$', s)`: one or more uppercase letters, a
hyphen, one or more digits and nothing else. -/
def isExactKeyL (l : List Char) : Bool :=
  let letters := l.takeWhile isUpperAZ
  letters ≠ [] &&
    match l.drop letters.length with
    | '-' :: ds => ds ≠ [] && ds.all Char.isDigit
    | _ => false

/-- Exact-key shape test on a string. -/
def isExactKey (s : String) : Bool := isExactKeyL s.toList

/-- Model of `_sanitize_fts_query`: quote exact keys and queries containing FTS5
operator characters, doubling embedded double quotes. -/
def sanitizeFtsQuery (query : String) : String :=
  if pyStrip query = "" then "\"\""
  else
    let q := pyStrip query
    if isExactKey q then "\"" ++ q ++ "\""
    else
      let specials : List Char := ['-', ':', '(', ')', '[', ']', '\x7b', '\x7d', '"']
      if (q.toList.any (fun c => specials.contains c)) &&
          !(pyStartsWith q "\"" && pyEndsWith q "\"") then
        "\"" ++ String.mk (q.toList.foldr
          (fun c acc => if c = '"' then '"' :: '"' :: acc else c :: acc) []) ++ "\""
      else q

/-- Model of `search_issues(query, limit, offset)`; returns `(page, total)`.  The
`SELECT *, 1 as rank` of the key branch is modelled by returning the rows
themselves (the synthetic rank column is not part of the row model). -/
def searchIssues (ftsMatch : String → Row → Bool) (rankLe : Row → Row → Bool)
    (db : Table) (query : String) (limit offset : Int) :
    List Row × Nat :=
  let q := pyStrip query
  let keyHits := db.filter (fun r => r.key = q && notDeleted r)
  let keyPage := sqlPage limit offset keyHits
  if isExactKey q && keyPage ≠ [] then
    (keyPage, keyHits.length)
  else
    let ftsq := sanitizeFtsQuery query
    let hits := db.filter (fun r => ftsMatch ftsq r && notDeleted r)
    (sqlPage limit offset (sortBy rankLe hits), hits.length)

/-! ## The JQL mini-parser (`search.py` lines 154-353). -/

/-- Mapping `JQL_FIELD_MAPPING`: JQL field name (lowercased) to database column. -/
def jqlFieldMapping : String → Option String
  | "project" => some "project_key"
  | "assignee" => some "assignee_display_name"
  | "status" => some "status_name"
  | "priority" => some "priority_name"
  | "created" => some "created"
  | "updated" => some "updated"
  | "summary" => some "summary"
  | "description" => some "description"
  | "reporter" => some "reporter_display_name"
  | "type" => some "issue_type"
  | "issuetype" => some "issue_type"
  | "key" => some "key"
  | "labels" => some "labels"
  | "components" => some "components"
  | "team" => some "custom_12313240"
  | "work_type" => some "custom_12320040"
  | "product_manager" => some "custom_12316752"
  | "px_impact_score" => some "custom_12322244"
  | _ => none

/-- The ordered operator table of `_parse_jql_condition`:
`(jql_op, sql_op)` pairs, tried in this order. -/
def opTable : List (String × String) :=
  [("!=", "!="), ("=", "="), ("IN", "IN"), (">", ">"), (">=", ">="),
   ("<", "<"), ("<=", "<="), ("~", "LIKE")]

/-- Compiled form of one JQL condition, carrying the parametrized value(s).
`renderCond` produces exactly the SQL text the Python code emits and
`condParams` exactly its parameter list. -/
inductive SqlCond where
  | isNullC (col : String)
  | isNotNullC (col : String)
  | cmpC (col op v : String)
  | likeC (col v : String)
  | inScalarC (col : String) (vs : List String)
  | or4C (col v : String)
  | not4C (col v : String)
  | inMultiC (col : String) (vs : List String)
  deriving DecidableEq, Repr

/-- SQL text of the 4-way OR used for `=` on labels/components. -/
def or4Sql (col : String) : String :=
  "(" ++ col ++ " = ? OR " ++ col ++ " LIKE ? OR " ++ col ++ " LIKE ? OR " ++
    col ++ " LIKE ?)"

/-- SQL text emitted for a compiled condition (exactly the Python f-strings). -/
def renderCond : SqlCond → String
  | .isNullC col => col ++ " IS NULL"
  | .isNotNullC col => col ++ " IS NOT NULL"
  | .cmpC col op _ => col ++ " " ++ op ++ " ?"
  | .likeC col _ => col ++ " LIKE ?"
  | .inScalarC col vs =>
      col ++ " IN (" ++ String.intercalate "," (vs.map (fun _ => "?")) ++ ")"
  | .or4C col _ => or4Sql col
  | .not4C col _ =>
      "(" ++ col ++ " IS NULL OR (" ++ col ++ " != ? AND " ++ col ++
        " NOT LIKE ? AND " ++ col ++ " NOT LIKE ? AND " ++ col ++ " NOT LIKE ?))"
  | .inMultiC col vs =>
      "(" ++ String.intercalate " OR " (vs.map (fun _ => or4Sql col)) ++ ")"

/-- The four parameters of the labels/components word-boundary pattern:
`[value, "value,%", "%, value", "%, value,%"]`. -/
def params4 (v : String) : List String :=
  [v, v ++ ",%", "%, " ++ v, "%, " ++ v ++ ",%"]

/-- Ordered parameter list of a compiled condition. -/
def condParams : SqlCond → List String
  | .isNullC _ => []
  | .isNotNullC _ => []
  | .cmpC _ _ v => [v]
  | .likeC _ v => ["%" ++ v ++ "%"]
  | .inScalarC _ vs => vs
  | .or4C _ v => params4 v
  | .not4C _ v => params4 v
  | .inMultiC _ vs => vs.flatMap params4

/-- SQLite evaluation of the 4-way OR with the parameters `params4 v` on a
column value (`col = ? OR col LIKE ? OR col LIKE ? OR col LIKE ?`). -/
def eval4 (cv : Option String) (v : String) : Bool :=
  sqlEq cv v || sqlLike (v ++ ",%") cv || sqlLike ("%, " ++ v) cv ||
    sqlLike ("%, " ++ v ++ ",%") cv

/-- SQLite truth value of a compiled condition on a row valuation (SQL NULL
collapses to false at the WHERE clause, as in SQLite). -/
def evalCond (c : SqlCond) (val : String → Option String) : Bool :=
  match c with
  | .isNullC col => (val col).isNone
  | .isNotNullC col => (val col).isSome
  | .cmpC col op v => sqlCmp (val col) op v
  | .likeC col v => sqlLike ("%" ++ v ++ "%") (val col)
  | .inScalarC col vs =>
      match val col with
      | none => false
      | some s => vs.contains s
  | .or4C col v => eval4 (val col) v
  | .not4C col v =>
      match val col with
      | none => true
      | some s =>
        (s ≠ v) && !sqlLike (v ++ ",%") (some s) &&
          !sqlLike ("%, " ++ v) (some s) && !sqlLike ("%, " ++ v ++ ",%") (some s)
  | .inMultiC col vs => vs.any (fun v => eval4 (val col) v)

/-! ### `re.split(rf"\s+{op}\s+", condition, flags=IGNORECASE)`

The patterns split on runs of whitespace surrounding the (letter-wise
case-insensitive) operator text.  The scan is modelled left to right with a
fuel argument equal to the input length, which every step strictly consumes,
so the definition is structural and computable by `decide`. -/

/-- Case-insensitive (ASCII) list equality on the first `|op|` characters:
is `op` a case-insensitive prefix of `l`? -/
def ciHasPref (op l : List Char) : Bool :=
  match op, l with
  | [], _ => true
  | _ :: _, [] => false
  | c :: op', d :: l' => (lowAscii c = lowAscii d) && ciHasPref op' l'

/-- If a separator match (`\s+ op \s+`) begins exactly at the head of `t`,
return the remainder after the (greedy) match. -/
def splitStep (op t : List Char) : Option (List Char) :=
  match t with
  | [] => none
  | c :: rest =>
    if c.isWhitespace then
      let after := rest.dropWhile Char.isWhitespace
      if ciHasPref op after then
        match after.drop op.length with
        | d :: rest' => if d.isWhitespace then some (rest'.dropWhile Char.isWhitespace)
                        else none
        | [] => none
      else none
    else none

/-- Left-to-right scan of `re.split`; `acc` holds the current piece reversed.
Each recursive call consumes at least one character, so `fuel := |input|`
suffices and the `fuel = 0` fallback is unreachable. -/
def splitOpAux (op : List Char) : Nat → List Char → List Char → List (List Char)
  | _, acc, [] => [acc.reverse]
  | 0, acc, t => [acc.reverse ++ t]
  | fuel + 1, acc, c :: rest =>
    match splitStep op (c :: rest) with
    | some rest2 => acc.reverse :: splitOpAux op fuel [] rest2
    | none => splitOpAux op fuel (c :: acc) rest

/-- Model of `re.split(rf"\s+{re.escape(op)}\s+", s, flags=re.IGNORECASE)` (the
operator text contains no regex metacharacter effects beyond escaping). -/
def splitOp (op : String) (s : String) : List String :=
  (splitOpAux op.toList s.toList.length [] s.toList).map String.mk

/-- Python `value_part[1:-1]` (the slice dropping first and last character). -/
def dropEnds (s : String) : String :=
  String.mk (s.toList.drop 1).dropLast

/-- Model of `_parse_operator_condition(condition, jql_op, sql_op)`: split on the
operator, map the field, build the compiled condition. -/
def parseOperatorCondition (condition jqlOp sqlOp : String) :
    Except String SqlCond := do
  let parts := splitOp jqlOp condition
  match parts with
  | [p0, p1] =>
    let fieldName := pyStrip p0
    let valuePart := pyStrip p1
    match jqlFieldMapping (pyLower fieldName) with
    | none => .error ("Unsupported JQL field: " ++ fieldName)
    | some dbColumn =>
      if sqlOp = "IN" then
        if pyStartsWith valuePart "(" && pyEndsWith valuePart ")" then
          let valuesStr := pyStrip (dropEnds valuePart)
          let values := (valuesStr.splitOn ",").map (fun v => dropQuotes (pyStrip v))
          if dbColumn = "labels" ∨ dbColumn = "components" then
            .ok (.inMultiC dbColumn values)
          else
            .ok (.inScalarC dbColumn values)
        else .error ("IN operator requires parentheses: " ++ valuePart)
      else if sqlOp = "LIKE" then
        .ok (.likeC dbColumn (dropQuotes valuePart))
      else
        let value := dropQuotes valuePart
        if pyLower value = "null" && sqlOp = "=" then .ok (.isNullC dbColumn)
        else if pyLower value = "null" && sqlOp = "!=" then .ok (.isNotNullC dbColumn)
        else
          let value := if pyLower value = "currentuser()" then
            "__CURRENT_USER_PLACEHOLDER__" else value
          if dbColumn = "labels" ∨ dbColumn = "components" then
            if sqlOp = "=" then .ok (.or4C dbColumn value)
            else if sqlOp = "!=" then .ok (.not4C dbColumn value)
            else .ok (.cmpC dbColumn sqlOp value)
          else .ok (.cmpC dbColumn sqlOp value)
  | _ => .error ("Invalid condition format: " ++ condition)

/-- Operator detection of `_parse_jql_condition`: `" != "` is matched
verbatim, every other operator is looked for as `" OP "` in the uppercased
condition. -/
def opDetected (jqlOp condition : String) : Bool :=
  if jqlOp = "!=" then containsSub condition " != "
  else containsSub (pyUpper condition) (" " ++ pyUpper jqlOp ++ " ")

/-- Scan the operator table in order for the first detected operator. -/
def findOp : List (String × String) → String → Option (String × String)
  | [], _ => none
  | (j, s) :: rest, condition =>
    if opDetected j condition then some (j, s) else findOp rest condition

/-- Model of `_parse_jql_condition(condition)`. -/
def parseJqlCondition (condition : String) : Except String SqlCond :=
  let c := pyStrip condition
  match findOp opTable c with
  | some (j, s) => parseOperatorCondition c j s
  | none => .error ("Unsupported JQL condition: " ++ c)

/-- Model of `_parse_jql(jql_query)`: strip, reject empty, split on `\s+AND\s+`
(case-insensitive), parse each part; any failure is wrapped in
`Failed to parse JQL '...': e`. -/
def parseJql (jqlQuery : String) : Except String (List SqlCond) :=
  let inner : Except String (List SqlCond) := do
    let query := pyStrip jqlQuery
    if query = "" then .error "Empty JQL query"
    else
      let parts := splitOp "AND" query
      let conds ← parts.mapM (fun p => parseJqlCondition (pyStrip p))
      if conds.isEmpty then .error "No valid conditions found in JQL"
      else .ok conds
  match inner with
  | .ok conds => .ok conds
  | .error e => .error ("Failed to parse JQL '" ++ jqlQuery ++ "': " ++ e)

/-- Model of `_search_jql`: compile the query, filter (`WHERE c1 AND c2 AND ...`),
order by `updated DESC`, paginate, and count without pagination.  Note the
SQL contains no soft-delete condition. -/
def searchJql (db : Table) (jqlQuery : String) (limit offset : Int) :
    Except String (List Row × Nat) := do
  let conds ← parseJql jqlQuery
  let hit := fun r => conds.all (fun c => evalCond c (colVal r))
  let hits := db.filter hit
  .ok (sqlPage limit offset (orderByUpdatedDesc hits), hits.length)

/-! ## `_search_regex` (`search.py` lines 355-451)

`re.compile` and the host regex engine have no local semantics: the compile
step enters the model as `compiled : Except String (String → Bool)` (error =
the `re.error` message, ok = the matcher `compiled_regex.search`).  Wall-clock
time enters as `clock : Nat → Nat`, the elapsed seconds observed at the k-th
cooperative checkpoint; the registered REGEXP function performs one checkpoint
per row scanned (checkpoints `0..n-1` for the page scan, `n` for the explicit
pre-count check, `n+1..2n` for the count scan).  `RegexError` values are the
exact Python message strings.

An exception raised inside a function registered with
`sqlite3.create_function` never propagates out of `conn.execute`: CPython's
`sqlite3` swallows it and the query fails with
`sqlite3.OperationalError("user-defined function raised exception")`, the
callback's own exception text lost.  `_search_regex` catches that
`sqlite3.Error` at `search.py` lines 448-449 and re-raises it as
`RegexError(f"Database error executing regex: \x7be\x7d")`.  So a deadline
excess detected at a per-row checkpoint inside the callback surfaces under
the generic database-error message, and only the explicit pre-count check
(`search.py` lines 420-425) surfaces the timeout message. -/

/-- The eight columns the regex SQL scans. -/
def regexCols : List String :=
  ["summary", "description", "comments", "assignee_display_name",
   "reporter_display_name", "custom_12316752", "custom_12320040",
   "custom_12313240"]

/-- The registered `REGEXP` function's per-text behaviour: NULL never
matches, otherwise the compiled pattern is searched in the text. -/
def regexpOnText (m : String → Bool) (text : Option String) : Bool :=
  match text with
  | none => false
  | some t => m t

/-- Does a row satisfy the 8-column `OR` of `REGEXP` tests? -/
def regexRowMatch (m : String → Bool) (r : Row) : Bool :=
  regexCols.any (fun c => regexpOnText m (colVal r c))

/-- The timeout message: raised by the registered REGEXP function (where
sqlite3 swallows it) and by the explicit pre-count check (where it reaches
the caller). -/
def timeoutMsg (timeoutSeconds : Nat) : String :=
  "Regex search timed out after " ++ toString timeoutSeconds ++ " seconds"

/-- The message raised when `re.compile` rejects the pattern. -/
def invalidPatternMsg (e : String) : String := "Invalid regex pattern: " ++ e

/-- The text of the `sqlite3.OperationalError` that `conn.execute` raises
when a registered function raises: the callback's exception — here the
timeout `RegexError` — is swallowed, its own text lost. -/
def callbackOperationalError : String := "user-defined function raised exception"

/-- The re-wrap applied by the handler `except sqlite3.Error as e` at
`search.py` lines 448-449. -/
def dbErrorMsg (e : String) : String := "Database error executing regex: " ++ e

/-- One `conn.execute` table scan with a cooperative deadline checkpoint per
row inside the registered REGEXP callback, starting at checkpoint index `k`.
A checkpoint past the deadline raises inside the callback, which sqlite3
surfaces as the `OperationalError` text, not as the callback's timeout
message. -/
def scanRows (m : String → Bool) (timeoutSeconds : Nat) (clock : Nat → Nat)
    (k : Nat) : List Row → Except String (List Row)
  | [] => .ok []
  | r :: rest =>
    if clock k > timeoutSeconds then .error callbackOperationalError
    else do
      let tail ← scanRows m timeoutSeconds clock (k + 1) rest
      .ok (if regexRowMatch m r then r :: tail else tail)

/-- Model of `_search_regex(pattern, limit, offset)`: validate the pattern, scan for
the page (ordered by `updated DESC`, paginated), re-check the deadline, scan
again for the count.  A `sqlite3.Error` from either scan is re-wrapped as
`"Database error executing regex: ..."`; the explicit pre-count check's
`RegexError` passes through unchanged (`except RegexError: raise`).  No
soft-delete condition appears in either SQL statement. -/
def searchRegex (compiled : Except String (String → Bool))
    (timeoutSeconds : Nat) (clock : Nat → Nat) (db : Table)
    (limit offset : Int) : Except String (List Row × Nat) :=
  match compiled with
  | .error e => .error (invalidPatternMsg e)
  | .ok m =>
    match scanRows m timeoutSeconds clock 0 db with
    | .error e => .error (dbErrorMsg e)
    | .ok hits =>
      let page := sqlPage limit offset (orderByUpdatedDesc hits)
      if clock db.length > timeoutSeconds then .error (timeoutMsg timeoutSeconds)
      else
        match scanRows m timeoutSeconds clock (db.length + 1) db with
        | .error e => .error (dbErrorMsg e)
        | .ok hits2 => .ok (page, hits2.length)

/-! ## The query router: `AdvancedSearch.search` (`search.py` lines 68-102)

Dispatches on the mode string with no limit clamping and no offset
validation; an unknown mode raises `SearchError`. -/

/-- Model of `AdvancedSearch.search(query, mode, limit, offset)`.  The FTS, rank,
regex-compile and clock parameters stand for the host facilities the three
paths use. -/
def advancedSearch (ftsMatch : String → Row → Bool) (rankLe : Row → Row → Bool)
    (compiled : Except String (String → Bool)) (timeoutSeconds : Nat)
    (clock : Nat → Nat) (db : Table) (query mode : String)
    (limit offset : Int) : Except String (List Row × Nat) :=
  if mode = "natural" then .ok (searchIssues ftsMatch rankLe db query limit offset)
  else if mode = "jql" then searchJql db query limit offset
  else if mode = "regex" then searchRegex compiled timeoutSeconds clock db limit offset
  else .error ("Unsupported search mode: " ++ mode)

/-- The only limit handling on the search path lives in `web.py`'s
`api_search`: `limit = min(int(request.args.get("limit", 100)),
config.search_max_results)`.  The offset is parsed with `int(...)` and never
range-checked. -/
def apiSearchLimit (requested maxResults : Int) : Int := min requested maxResults

/-! ## `Config.validate` (`config.py` lines 82-223)

The YAML dictionary is modelled well-typed (type-mismatch errors such as
"must be a list" are outside the claims).  Python truthiness of absent or
empty values is folded into the representation: an absent-or-empty section is
`none`, absent-or-empty strings are `none`, absent-or-empty lists are `[]` —
each behaves identically in every check the code performs.  The filesystem
probe for the database directory enters as the parameter `dirExists`. -/

structure JiraSection where
  url : Option String
  username : Option String
  pat : Option String
  deriving DecidableEq, Repr

structure SyncSection where
  projectKey : Option String
  jql : Option String
  rateLimit : Option Int
  batchSize : Option Int
  deriving DecidableEq, Repr

structure SearchSection where
  maxResults : Option Int
  timeoutSeconds : Option Int
  deriving DecidableEq, Repr

structure CustomField where
  id : Option String
  name : Option String
  ftype : Option String
  deriving DecidableEq, Repr

structure DatabaseSection where
  path : Option String
  deriving DecidableEq, Repr

structure FieldsSection where
  core : List String
  search : List String
  deriving DecidableEq, Repr

structure ConfigData where
  jira : Option JiraSection
  sync : Option SyncSection
  search : Option SearchSection
  customFields : List CustomField
  database : Option DatabaseSection
  fields : Option FieldsSection
  deriving DecidableEq, Repr

/-- Python `os.path.dirname`: everything before the last `/` (empty when no
slash). -/
def dirName (p : String) : String :=
  String.mk ((p.toList.reverse.dropWhile (fun c => c ≠ '/')).drop 1).reverse

/-- The recognized custom-field types. -/
def knownFieldTypes : List String := ["text", "number", "select", "multiselect", "date"]

/-- Errors and warnings produced per custom field, in source order. -/
def customFieldChecks (i : Nat) (f : CustomField) : List String × List String :=
  let idErrs :=
    match f.id with
    | none => (["custom_fields[" ++ toString i ++ "].id is required"], [])
    | some id =>
      if pyStartsWith id "customfield_" then ([], [])
      else ([], ["custom_fields[" ++ toString i ++
        "].id should typically start with 'customfield_'"])
  let nameErrs :=
    match f.name with
    | none => ["custom_fields[" ++ toString i ++ "].name is required"]
    | some _ => []
  let typeWarns :=
    if knownFieldTypes.contains (f.ftype.getD "text") then []
    else ["custom_fields[" ++ toString i ++ "].type '" ++ f.ftype.getD "text" ++
      "' is not a recognized type"]
  (idErrs.1 ++ nameErrs, idErrs.2 ++ typeWarns)

/-- The full `(errors, warnings)` pair accumulated by `Config.validate`, in
source order. -/
def validateChecks (dirExists : String → Bool) (cfg : ConfigData) :
    List String × List String :=
  let jiraErrs :=
    match cfg.jira with
    | none => ["jira section is required"]
    | some j =>
      (match j.url with
       | none => ["jira.url is required"]
       | some u =>
         if pyStartsWith u "http://" || pyStartsWith u "https://" then []
         else ["jira.url must start with http:// or https://"]) ++
      (if j.username.isNone then ["jira.username is required"] else []) ++
      (if j.pat.isNone then ["jira.pat (Personal Access Token) is required"] else [])
  let syncChecks :=
    match cfg.sync with
    | none => (["sync section is required"], ([] : List String))
    | some s =>
      let keyErrs :=
        if s.projectKey.isNone && s.jql.isNone then
          ["Either sync.project_key or sync.jql must be specified"]
        else []
      let rl := s.rateLimit.getD 100
      let rlChecks :=
        if rl ≤ 0 then (["sync.rate_limit must be a positive integer"], ([] : List String))
        else if rl > 1000 then
          ([], ["sync.rate_limit > 1000 may cause issues with Jira API limits"])
        else ([], [])
      let bs := s.batchSize.getD 100
      let bsChecks :=
        if bs ≤ 0 then (["sync.batch_size must be a positive integer"], ([] : List String))
        else if bs > 1000 then ([], ["sync.batch_size > 1000 may cause memory issues"])
        else ([], [])
      (keyErrs ++ rlChecks.1 ++ bsChecks.1, rlChecks.2 ++ bsChecks.2)
  let searchErrs :=
    match cfg.search with
    | none => []
    | some s =>
      (if s.maxResults.getD 1000 ≤ 0 then
        ["search.max_results must be a positive integer"] else []) ++
      (if s.timeoutSeconds.getD 5 ≤ 0 then
        ["search.timeout_seconds must be a positive number"] else [])
  let cfChecks := (cfg.customFields.enum.map (fun p => customFieldChecks p.1 p.2)).foldr
    (fun p acc => (p.1 ++ acc.1, p.2 ++ acc.2)) ([], [])
  let dbWarns :=
    match cfg.database with
    | none => []
    | some d =>
      match d.path with
      | none => []
      | some p =>
        let dir := dirName p
        if dir ≠ "" && !dirExists dir then
          ["Database directory does not exist: " ++ dir]
        else []
  let fieldsChecks :=
    match cfg.fields with
    | none => (([] : List String), ([] : List String))
    | some f =>
      let coreErrs :=
        if f.core ≠ [] then
          (["key", "summary"].filter (fun req => !f.core.contains req)).map
            (fun req => "fields.core must include required field: " ++ req)
        else []
      let searchWarns :=
        if f.search ≠ [] && f.core ≠ [] then
          (f.search.filter (fun s => !f.core.contains s)).map
            (fun s => "Search field '" ++ s ++ "' is not in core fields list")
        else []
      (coreErrs, searchWarns)
  (jiraErrs ++ syncChecks.1 ++ searchErrs ++ cfChecks.1 ++ fieldsChecks.1,
   syncChecks.2 ++ cfChecks.2 ++ dbWarns ++ fieldsChecks.2)

/-- Model of `Config.validate()`: warnings are logged only; a `ConfigError` is raised
exactly when the error list is nonempty.  Returns the warning list on
acceptance. -/
def validateConfig (dirExists : String → Bool) (cfg : ConfigData) :
    Except String (List String) :=
  let checks := validateChecks dirExists cfg
  if checks.1 ≠ [] then
    .error ("Configuration validation failed:\n" ++
      String.intercalate "\n" (checks.1.map (fun e => "- " ++ e)) ++
      (if checks.2 ≠ [] then
        "\n\nWarnings:\n" ++ String.intercalate "\n" (checks.2.map (fun w => "- " ++ w))
      else ""))
  else .ok checks.2

/-! ## Flattening of multi-valued fields (`_process_issue_data`): labels and
components are stored as the comma+space join of the upstream name list. -/

/-- Python `", ".join(xs)` on character lists. -/
def joinCS : List (List Char) → List Char
  | [] => []
  | [x] => x
  | x :: y :: rest => x ++ ',' :: ' ' :: joinCS (y :: rest)

/-- Python `", ".join(xs)` on strings. -/
def joinCommaSpace (xs : List String) : String :=
  String.mk (joinCS (xs.map String.toList))

/-- A character that takes part in the labels word-boundary patterns without
surprises: not a `LIKE` wildcard, not the list-separator comma, and not an
ASCII uppercase letter (so SQLite's case-folding `LIKE` agrees with `=`). -/
def plainChar (c : Char) : Bool :=
  c ≠ '%' && c ≠ '_' && c ≠ ',' && !isUpperAZ c

/-- Overwrite only the two soft-delete columns of a row (used to state that a
predicate never reads them). -/
def setDel (b : Option Bool) (t : Option String) (r : Row) : Row :=
  { r with is_deleted := b, deleted_at := t }

/-- Erase the two soft-delete columns (used to state frame conditions: two
rows equal under `clearDel` differ at most in those two columns). -/
def clearDel (r : Row) : Row :=
  { r with is_deleted := none, deleted_at := none }

/-- No `LIKE` wildcard characters. -/
def noWild (l : List Char) : Bool := l.all (fun c => c ≠ '%' && c ≠ '_')

/-- No whitespace characters (tokens the operator splitter scans across). -/
def wsFree (l : List Char) : Bool := l.all (fun c => !c.isWhitespace)

/-- A row with every optional column NULL (base value for concrete test
rows). -/
def emptyRow : Row :=
  { key := "", summary := "", description := none, status_id := none,
    status_name := none, priority_id := none, priority_name := none,
    assignee_key := none, assignee_name := none, assignee_display_name := none,
    reporter_key := none, reporter_name := none, reporter_display_name := none,
    created := none, updated := none, comments := none, labels := none,
    components := none, project_key := none, project_name := none,
    issue_type := none, custom_12313240 := none, custom_12320040 := none,
    custom_12316752 := none, custom_12322244 := none, raw_json := none,
    synced_at := none, is_deleted := none, deleted_at := none }

/-- A soft-deleted row with key `X-1` (concrete counterexample input). -/
def rowX1del : Row :=
  { emptyRow with
    key := "X-1"
    summary := "fix login bug"
    updated := some "2024-01-02T00:00:00"
    is_deleted := some true
    deleted_at := some "2024-02-01T00:00:00" }

/-- Processed content for issue `X-1` (concrete upsert input). -/
def rowX1content : IssueContent :=
  { key := "X-1", summary := "fix login bug", description := none,
    status_id := none, status_name := none, priority_id := none,
    priority_name := none, assignee_key := none, assignee_name := none,
    assignee_display_name := none, reporter_key := none, reporter_name := none,
    reporter_display_name := none, created := none,
    updated := some "2024-01-02T00:00:00", comments := none, labels := none,
    components := none, project_key := none, project_name := none,
    issue_type := none, custom_12313240 := none, custom_12320040 := none,
    custom_12316752 := none, custom_12322244 := none, raw_json := none }

/-- A live (non-deleted) row with key `Y-2`. -/
def rowY2 : Row :=
  { emptyRow with
    key := "Y-2"
    summary := "improve login speed"
    updated := some "2024-01-03T00:00:00"
    is_deleted := some false }

/-! ## Lemmas about case folding. -/

theorem lowAscii_fix {c : Char} (h : isUpperAZ c = false) : lowAscii c = c := by
  unfold lowAscii
  split <;> simp_all [isUpperAZ]

theorem lowAscii_pct {c : Char} (h : lowAscii c = '%') : c = '%' := by
  unfold lowAscii at h
  split at h <;> simp_all

theorem lowAscii_usc {c : Char} (h : lowAscii c = '_') : c = '_' := by
  unfold lowAscii at h
  split at h <;> simp_all

theorem foldCase_fixed {l : List Char} (h : ∀ c ∈ l, isUpperAZ c = false) :
    foldCase l = l := by
  unfold foldCase
  induction l with
  | nil => rfl
  | cons c l ih =>
    simp only [List.map_cons]
    rw [lowAscii_fix (h c (by simp)), ih (fun d hd => h d (by simp [hd]))]

theorem foldCase_append (a b : List Char) :
    foldCase (a ++ b) = foldCase a ++ foldCase b := by
  simp [foldCase]

theorem noWild_foldCase {l : List Char} (h : noWild l = true) :
    noWild (foldCase l) = true := by
  simp only [noWild, foldCase, List.all_map, List.all_eq_true] at *
  intro c hc
  have := h c hc
  simp only [Function.comp, Bool.and_eq_true, decide_eq_true_eq] at *
  exact ⟨fun hp => this.1 (lowAscii_pct hp), fun hu => this.2 (lowAscii_usc hu)⟩

/-! ## Characterizations of the `LIKE` matcher. -/

theorem likeMatch_pct (p t : List Char) :
    likeMatch ('%' :: p) t = anySuffix (likeMatch p) t := by
  simp [likeMatch]

theorem likeMatch_lit_nil {c : Char} (p : List Char) (hc : c ≠ '%') :
    likeMatch (c :: p) [] = false := by
  simp [likeMatch, hc]

theorem likeMatch_lit_cons {c d : Char} (p t : List Char) (hc : c ≠ '%')
    (hu : c ≠ '_') :
    likeMatch (c :: p) (d :: t) = (decide (c = d) && likeMatch p t) := by
  simp [likeMatch, hc, hu]

theorem anySuffix_iff (f : List Char → Bool) (t : List Char) :
    anySuffix f t = true ↔ ∃ s, s <:+ t ∧ f s = true := by
  induction t with
  | nil =>
    simp only [anySuffix]
    constructor
    · intro h; exact ⟨[], List.suffix_refl _, h⟩
    · rintro ⟨s, hs, hf⟩
      rw [List.suffix_nil.mp hs] at hf; exact hf
  | cons c t ih =>
    simp only [anySuffix, Bool.or_eq_true, ih]
    constructor
    · rintro (h | ⟨s, hs, hf⟩)
      · exact ⟨c :: t, List.suffix_refl _, h⟩
      · exact ⟨s, hs.trans (List.suffix_cons c t), hf⟩
    · rintro ⟨s, hs, hf⟩
      rcases List.suffix_cons_iff.mp hs with h | h
      · left; rw [← h]; exact hf
      · right; exact ⟨s, h, hf⟩

theorem noWild_cons {c : Char} {p : List Char} (h : noWild (c :: p) = true) :
    c ≠ '%' ∧ c ≠ '_' ∧ noWild p = true := by
  simp only [noWild, List.all_cons, Bool.and_eq_true, decide_eq_true_eq] at h ⊢
  exact ⟨h.1.1, h.1.2, h.2⟩

theorem likeMatch_noWild {p : List Char} (hp : noWild p = true) :
    ∀ t, likeMatch p t = true ↔ p = t := by
  induction p with
  | nil => intro t; cases t <;> simp [likeMatch]
  | cons c p ih =>
    obtain ⟨hc, hu, hp'⟩ := noWild_cons hp
    intro t
    cases t with
    | nil => rw [likeMatch_lit_nil _ hc]; simp
    | cons d t =>
      rw [likeMatch_lit_cons _ _ hc hu]
      simp [ih hp', List.cons_eq_cons]

theorem likeMatch_trailing_pct {p : List Char} (hp : noWild p = true) :
    ∀ t, likeMatch (p ++ ['%']) t = true ↔ p <+: t := by
  induction p with
  | nil =>
    intro t
    simp only [List.nil_append, likeMatch_pct, anySuffix_iff]
    constructor
    · intro _; exact List.nil_prefix
    · intro _; exact ⟨[], ⟨t, by simp⟩, rfl⟩
  | cons c p ih =>
    obtain ⟨hc, hu, hp'⟩ := noWild_cons hp
    intro t
    cases t with
    | nil =>
      rw [List.cons_append, likeMatch_lit_nil _ hc]
      simp
    | cons d t =>
      rw [List.cons_append, likeMatch_lit_cons _ _ hc hu]
      simp [ih hp', List.cons_prefix_cons]

theorem likeMatch_leading_pct {p : List Char} (hp : noWild p = true) (t : List Char) :
    likeMatch ('%' :: p) t = true ↔ p <:+ t := by
  rw [likeMatch_pct, anySuffix_iff]
  constructor
  · rintro ⟨s, hs, hf⟩
    rw [← (likeMatch_noWild hp s).mp hf] at hs; exact hs
  · intro h
    exact ⟨p, h, (likeMatch_noWild hp p).mpr rfl⟩

theorem likeMatch_both_pct {p : List Char} (hp : noWild p = true) (t : List Char) :
    likeMatch ('%' :: (p ++ ['%'])) t = true ↔ p <:+: t := by
  rw [likeMatch_pct, anySuffix_iff]
  constructor
  · rintro ⟨s, hs, hf⟩
    have hpre := (likeMatch_trailing_pct hp s).mp hf
    exact List.infix_iff_prefix_suffix.mpr ⟨s, hpre, hs⟩
  · intro h
    obtain ⟨s, hpre, hs⟩ := List.infix_iff_prefix_suffix.mp h
    exact ⟨s, hs, (likeMatch_trailing_pct hp s).mpr hpre⟩

/-! ## The comma+space join and the 4-way word-boundary pattern. -/

theorem joinCS_cons {x : List Char} {L : List (List Char)} (h : L ≠ []) :
    joinCS (x :: L) = x ++ ',' :: ' ' :: joinCS L := by
  cases L with
  | nil => exact absurd rfl h
  | cons y R => rfl

theorem joinCS_append {A B : List (List Char)} (hA : A ≠ []) (hB : B ≠ []) :
    joinCS (A ++ B) = joinCS A ++ ',' :: ' ' :: joinCS B := by
  induction A with
  | nil => exact absurd rfl hA
  | cons a A ih =>
    cases A with
    | nil =>
      cases B with
      | nil => exact absurd rfl hB
      | cons b R => simp [joinCS]
    | cons a' A' =>
      have h1 : joinCS (a :: a' :: A') = a ++ ',' :: ' ' :: joinCS (a' :: A') :=
        joinCS_cons (by simp)
      have h2 : joinCS (a' :: A' ++ B) = joinCS (a' :: A') ++ ',' :: ' ' :: joinCS B :=
        ih (by simp)
      rw [List.cons_append, joinCS_cons (by simp : a' :: A' ++ B ≠ []), h2, h1]
      simp

/-- Every comma of a comma-free-element join is a separator: a split of the
join at a comma splits the element list into a nonempty prefix and a
nonempty suffix around that separator. -/
theorem joinCS_split {L : List (List Char)} (hL : ∀ x ∈ L, ',' ∉ x) :
    ∀ a b, joinCS L = a ++ ',' :: b →
    ∃ P B, L = P ++ B ∧ P ≠ [] ∧ B ≠ [] ∧ a = joinCS P ∧ b = ' ' :: joinCS B := by
  induction L with
  | nil =>
    intro a b h
    simp only [joinCS] at h
    exact absurd h.symm (by simp)
  | cons x L ih =>
    intro a b h
    cases L with
    | nil =>
      simp only [joinCS] at h
      exact absurd (h ▸ List.mem_append_right a (by simp))
        (hL x (by simp))
    | cons y R =>
      rw [joinCS_cons (by simp)] at h
      rcases List.append_eq_append_iff.mp h.symm with ⟨a', hx, hcb⟩ | ⟨c', hax, hrest⟩
      · cases a' with
        | nil =>
          refine ⟨[x], y :: R, by simp, by simp, by simp, ?_, ?_⟩
          · have hxa : x = a := by simpa using hx
            simp only [joinCS]; exact hxa.symm
          · simpa using hcb
        | cons d a'' =>
          simp only [List.cons_append] at hcb
          have hd : (',' : Char) = d := (List.cons_eq_cons.mp hcb).1
          refine absurd (?_ : (',' : Char) ∈ x) (hL x (by simp))
          rw [hx, ← hd]
          exact List.mem_append_right a (by simp)
      · cases c' with
        | nil =>
          refine ⟨[x], y :: R, by simp, by simp, by simp, ?_, ?_⟩
          · have hxa : a = x := by simpa using hax
            simp only [joinCS]; exact hxa
          · simpa using hrest.symm
        | cons d c'' =>
          simp only [List.cons_append] at hrest
          obtain ⟨hd, hrest2⟩ := List.cons_eq_cons.mp hrest
          cases c'' with
          | nil =>
            exact absurd (List.cons_eq_cons.mp hrest2).1 (by decide)
          | cons e c''' =>
            simp only [List.cons_append] at hrest2
            obtain ⟨he, hrest3⟩ := List.cons_eq_cons.mp hrest2
            obtain ⟨P, B, hPB, hPne, hBne, hjp, hjb⟩ :=
              ih (fun z hz => hL z (by simp [hz])) c''' b hrest3
            refine ⟨x :: P, B, by simp [hPB], by simp, hBne, ?_, hjb⟩
            rw [joinCS_cons hPne, hax, ← hd, ← he, hjp]

/-- A comma-free nonempty join forces a singleton element list. -/
theorem joinCS_singleton {P : List (List Char)} (hP : P ≠ [])
    (hnc : ',' ∉ joinCS P) : ∃ p, P = [p] := by
  cases P with
  | nil => exact absurd rfl hP
  | cons p Q =>
    cases Q with
    | nil => exact ⟨p, rfl⟩
    | cons q R =>
      rw [joinCS_cons (by simp)] at hnc
      exact absurd (List.mem_append_right p (by simp)) hnc

/-- Characterization of the compiled labels/components `=` pattern on a
comma+space-joined list: under comma-freedom of the value and the elements,
the 4-way disjunction holds exactly when the value is an element. -/
theorem labels_eq4_iff {v : List Char} {L : List (List Char)}
    (hv : v ≠ []) (hvc : ',' ∉ v) (hLc : ∀ x ∈ L, ',' ∉ x) :
    (joinCS L = v ∨ v ++ [','] <+: joinCS L ∨ (',' :: ' ' :: v) <:+ joinCS L ∨
      (',' :: ' ' :: v ++ [',']) <:+: joinCS L) ↔ v ∈ L := by
  constructor
  · rintro (h | h | h | h)
    · cases L with
      | nil => simp only [joinCS] at h; exact absurd h.symm hv
      | cons x Q =>
        cases Q with
        | nil => simp only [joinCS] at h; simp [h]
        | cons y R =>
          rw [joinCS_cons (by simp)] at h
          exact absurd (h ▸ List.mem_append_right x (by simp)) hvc
    · obtain ⟨b, hb⟩ := h
      rw [List.append_assoc] at hb
      obtain ⟨P, B, hPB, hPne, _, hjp, _⟩ := joinCS_split hLc v b hb.symm
      obtain ⟨p, hp⟩ := joinCS_singleton hPne (by rw [← hjp]; exact hvc)
      have : v = p := by rw [hjp, hp]; rfl
      rw [hPB, hp, this]
      simp
    · obtain ⟨a, ha⟩ := h
      obtain ⟨P, B, hPB, _, hBne, _, hjb⟩ := joinCS_split hLc a (' ' :: v) ha.symm
      obtain ⟨hsp, hv'⟩ := List.cons_eq_cons.mp hjb
      obtain ⟨p, hp⟩ := joinCS_singleton hBne (by rw [← hv']; exact hvc)
      have : v = p := by rw [hv', hp]; rfl
      rw [hPB, hp, this]
      simp
    · obtain ⟨a, c, hac⟩ := h
      have hac' : joinCS L = a ++ ',' :: (' ' :: v ++ ',' :: c) := by
        rw [← hac]; simp
      obtain ⟨P, B, hPB, _, hBne, _, hjb⟩ := joinCS_split hLc a _ hac'
      obtain ⟨hsp, hv'⟩ := List.cons_eq_cons.mp hjb
      obtain ⟨P', B', hPB', hPne', _, hjp', _⟩ :=
        joinCS_split (fun z hz => hLc z (by rw [hPB]; exact List.mem_append_right P hz))
          v c hv'.symm
      obtain ⟨p, hp⟩ := joinCS_singleton hPne' (by rw [← hjp']; exact hvc)
      have : v = p := by rw [hjp', hp]; rfl
      rw [hPB, hPB', hp, this]
      simp
  · intro h
    obtain ⟨A, B, hAB⟩ := List.append_of_mem h
    subst hAB
    cases A with
    | nil =>
      cases B with
      | nil => left; simp [joinCS]
      | cons b R =>
        right; left
        rw [List.nil_append, joinCS_cons (by simp : (b :: R : List (List Char)) ≠ [])]
        exact ⟨' ' :: joinCS (b :: R), by simp⟩
    | cons a Q =>
      cases B with
      | nil =>
        right; right; left
        rw [joinCS_append (by simp : (a :: Q : List (List Char)) ≠ [])
          (by simp : ([v] : List (List Char)) ≠ [])]
        exact ⟨joinCS (a :: Q), by simp [joinCS]⟩
      | cons b R =>
        right; right; right
        have h1 : joinCS ((a :: Q) ++ v :: b :: R) =
            joinCS (a :: Q) ++ ',' :: ' ' :: (v ++ ',' :: ' ' :: joinCS (b :: R)) := by
          rw [joinCS_append (by simp : (a :: Q : List (List Char)) ≠ [])
            (by simp : (v :: b :: R : List (List Char)) ≠ []),
            joinCS_cons (by simp : (b :: R : List (List Char)) ≠ [])]
        rw [h1]
        exact ⟨joinCS (a :: Q), ' ' :: joinCS (b :: R), by simp⟩

/-! ## Bridging the list-level characterization to `eval4` on strings. -/

theorem plainChar_spec {c : Char} (h : plainChar c = true) :
    c ≠ '%' ∧ c ≠ '_' ∧ c ≠ ',' ∧ isUpperAZ c = false := by
  simp only [plainChar, Bool.and_eq_true, decide_eq_true_eq, Bool.not_eq_true'] at h
  exact ⟨h.1.1.1, h.1.1.2, h.1.2, h.2⟩

theorem plainStr_noWild {l : List Char} (h : ∀ c ∈ l, plainChar c = true) :
    noWild l = true := by
  simp only [noWild, List.all_eq_true, Bool.and_eq_true, decide_eq_true_eq]
  intro c hc
  obtain ⟨h1, h2, _, _⟩ := plainChar_spec (h c hc)
  exact ⟨h1, h2⟩

theorem plainStr_foldFix {l : List Char} (h : ∀ c ∈ l, plainChar c = true) :
    foldCase l = l :=
  foldCase_fixed (fun c hc => (plainChar_spec (h c hc)).2.2.2)

theorem plainStr_noComma {l : List Char} (h : ∀ c ∈ l, plainChar c = true) :
    ',' ∉ l := fun hc => absurd rfl (plainChar_spec (h ',' hc)).2.2.1

theorem mem_joinCS {c : Char} : ∀ {Ls : List (List Char)}, c ∈ joinCS Ls →
    (∃ x ∈ Ls, c ∈ x) ∨ c = ',' ∨ c = ' ' := by
  intro Ls
  induction Ls with
  | nil => intro h; simp [joinCS] at h
  | cons x Q ih =>
    intro h
    cases Q with
    | nil => simp only [joinCS] at h; exact Or.inl ⟨x, by simp, h⟩
    | cons y R =>
      rw [joinCS_cons (by simp)] at h
      rcases List.mem_append.mp h with hx | hrest
      · exact Or.inl ⟨x, by simp, hx⟩
      · rcases List.mem_cons.mp hrest with hc | hrest2
        · exact Or.inr (Or.inl hc)
        · rcases List.mem_cons.mp hrest2 with hc | hmem
          · exact Or.inr (Or.inr hc)
          · rcases ih hmem with ⟨z, hz, hcz⟩ | hc
            · exact Or.inl ⟨z, by simp [hz], hcz⟩
            · exact Or.inr hc

theorem noWild_append {a b : List Char} (ha : noWild a = true) (hb : noWild b = true) :
    noWild (a ++ b) = true := by
  simp only [noWild, List.all_append, Bool.and_eq_true] at *
  exact ⟨ha, hb⟩

/-- The 4-way compiled pattern for `labels = v` / `components = v`, evaluated
on a column holding the comma+space join of `L`, holds exactly when `v` is an
element of `L` — provided `v` is nonempty and `v` and the elements contain no
wildcard, no comma and no ASCII uppercase letter. -/
theorem eval4_joinCommaSpace (v : String) (L : List String)
    (hv : v ≠ "") (hvp : ∀ c ∈ v.toList, plainChar c = true)
    (hLp : ∀ x ∈ L, ∀ c ∈ x.toList, plainChar c = true) :
    (eval4 (some (joinCommaSpace L)) v = true ↔ v ∈ L) := by
  have hfoldv : foldCase v.toList = v.toList := plainStr_foldFix hvp
  have hnwv : noWild v.toList = true := plainStr_noWild hvp
  have hvcomma : ',' ∉ v.toList := plainStr_noComma hvp
  have hvnil : v.toList ≠ [] := by
    intro h; exact hv (String.ext h)
  have hLscomma : ∀ x ∈ L.map String.toList, ',' ∉ x := by
    rintro x hx
    obtain ⟨s, hs, rfl⟩ := List.mem_map.mp hx
    exact plainStr_noComma (hLp s hs)
  have hJ : (joinCommaSpace L).toList = joinCS (L.map String.toList) := rfl
  have hfoldJ : foldCase (joinCS (L.map String.toList)) = joinCS (L.map String.toList) := by
    refine foldCase_fixed (fun c hc => ?_)
    rcases mem_joinCS hc with ⟨x, hx, hcx⟩ | hc' | hc'
    · obtain ⟨s, hs, rfl⟩ := List.mem_map.mp hx
      exact (plainChar_spec (hLp s hs c hcx)).2.2.2
    · rw [hc']; decide
    · rw [hc']; decide
  have hp1 : (v ++ ",%").toList = (v.toList ++ [',']) ++ ['%'] := by
    show v.toList ++ [',', '%'] = (v.toList ++ [',']) ++ ['%']
    simp
  have hp2 : ("%, " ++ v).toList = '%' :: (',' :: ' ' :: v.toList) := by
    show ['%', ',', ' '] ++ v.toList = '%' :: (',' :: ' ' :: v.toList)
    simp
  have hp3 : ("%, " ++ v ++ ",%").toList =
      '%' :: ((',' :: ' ' :: v.toList ++ [',']) ++ ['%']) := by
    show (['%', ',', ' '] ++ v.toList) ++ [',', '%'] =
      '%' :: ((',' :: ' ' :: v.toList ++ [',']) ++ ['%'])
    simp
  have hnw1 : noWild (v.toList ++ [',']) = true := noWild_append hnwv (by decide)
  have hnw2 : noWild (',' :: ' ' :: v.toList) = true := by
    simp only [noWild, List.all_cons, Bool.and_eq_true] at *
    exact ⟨by decide, by decide, hnwv⟩
  have hnw3 : noWild (',' :: ' ' :: v.toList ++ [',']) = true := by
    have := noWild_append hnw2 (show noWild [','] = true by decide)
    simpa using this
  have hfold1 : foldCase ((v.toList ++ [',']) ++ ['%']) = (v.toList ++ [',']) ++ ['%'] := by
    rw [foldCase_append, foldCase_append, hfoldv]
    rfl
  have hfold2 : foldCase ('%' :: (',' :: ' ' :: v.toList)) = '%' :: (',' :: ' ' :: v.toList) := by
    show foldCase (['%', ',', ' '] ++ v.toList) = ['%', ',', ' '] ++ v.toList
    rw [foldCase_append, hfoldv]
    rfl
  have hfold3 : foldCase ('%' :: ((',' :: ' ' :: v.toList ++ [',']) ++ ['%'])) =
      '%' :: ((',' :: ' ' :: v.toList ++ [',']) ++ ['%']) := by
    show foldCase (['%', ',', ' '] ++ ((v.toList ++ [',']) ++ ['%'])) =
      '%' :: ((',' :: ' ' :: v.toList ++ [',']) ++ ['%'])
    rw [foldCase_append, foldCase_append, foldCase_append, hfoldv]
    rfl
  have hmem : v.toList ∈ L.map String.toList ↔ v ∈ L := by
    constructor
    · intro h
      obtain ⟨s, hs, he⟩ := List.mem_map.mp h
      rwa [← String.ext he]
    · intro h; exact List.mem_map_of_mem _ h
  have hd1 : (joinCommaSpace L = v) ↔ joinCS (L.map String.toList) = v.toList := by
    rw [String.ext_iff]
    exact Iff.rfl
  rw [← hmem, ← labels_eq4_iff hvnil hvcomma hLscomma]
  simp only [eval4, sqlEq, sqlLike, sqlLikeL, hJ, hp1, hp2, hp3,
    hfold1, hfold2, hfold3, hfoldJ, Bool.or_eq_true, decide_eq_true_eq]
  rw [likeMatch_trailing_pct hnw1, likeMatch_leading_pct hnw2, likeMatch_both_pct hnw3,
    hd1]
  tauto

/-- On a non-NULL column the compiled `!=` form is the exact boolean negation
of the compiled `=` form (the `IS NULL` escape only fires on NULL). -/
theorem not4_eq_not_eval4 (col v : String) (val : String → Option String)
    (s : String) (h : val col = some s) :
    evalCond (.not4C col v) val = !eval4 (val col) v := by
  simp only [evalCond, eval4, h, sqlEq]
  simp [Bool.not_or, Bool.and_assoc]

/-- The compiled `~` predicate (`col LIKE ?` with parameter `%value%`) on a
wildcard-free value holds exactly when the case-folded value occurs as a
contiguous substring of the case-folded column text. -/
theorem likeC_ci_substring (v s : String) (hv : noWild v.toList = true) :
    sqlLike ("%" ++ v ++ "%") (some s) = true ↔
      foldCase v.toList <:+: foldCase s.toList := by
  have hp : ("%" ++ v ++ "%").toList = '%' :: (v.toList ++ ['%']) := by
    show (['%'] ++ v.toList) ++ ['%'] = '%' :: (v.toList ++ ['%'])
    simp
  have hfold : foldCase ('%' :: (v.toList ++ ['%'])) =
      '%' :: (foldCase v.toList ++ ['%']) := by
    show foldCase (['%'] ++ (v.toList ++ ['%'])) = '%' :: (foldCase v.toList ++ ['%'])
    rw [foldCase_append, foldCase_append]
    rfl
  rw [sqlLike, sqlLikeL, hp, hfold]
  exact likeMatch_both_pct (noWild_foldCase hv) _

/-! ## Sorting and pagination membership. -/

theorem mem_sortedInsert {α : Type} (le : α → α → Bool) (a x : α) (l : List α) :
    x ∈ sortedInsert le a l ↔ x = a ∨ x ∈ l := by
  induction l with
  | nil => simp [sortedInsert]
  | cons b l ih =>
    simp only [sortedInsert]
    split
    · simp
    · simp [ih]
      tauto

theorem mem_sortBy {α : Type} (le : α → α → Bool) (x : α) (l : List α) :
    x ∈ sortBy le l ↔ x ∈ l := by
  induction l with
  | nil => simp [sortBy]
  | cons a l ih => simp [sortBy, mem_sortedInsert, ih]

theorem mem_sqlPage {α : Type} {x : α} {limit offset : Int} {l : List α}
    (h : x ∈ sqlPage limit offset l) : x ∈ l := by
  simp only [sqlPage] at h
  split at h
  · exact List.mem_of_mem_drop h
  · exact List.mem_of_mem_drop (List.mem_of_mem_take h)

/-- SQLite treats a negative `OFFSET` like zero. -/
theorem sqlPage_neg_offset {α : Type} (limit offset : Int) (l : List α)
    (h : offset < 0) : sqlPage limit offset l = sqlPage limit 0 l := by
  have : offset.toNat = 0 := Int.toNat_of_nonpos (le_of_lt h)
  simp [sqlPage, this]

/-! ## Frame facts: the compiled search predicates never read the soft-delete
columns. -/

theorem colVal_setDel (b : Option Bool) (t : Option String) (r : Row) :
    colVal (setDel b t r) = colVal r := rfl

theorem evalCond_setDel (c : SqlCond) (b : Option Bool) (t : Option String) (r : Row) :
    evalCond c (colVal (setDel b t r)) = evalCond c (colVal r) := by
  rw [colVal_setDel]

theorem regexRowMatch_setDel (m : String → Bool) (b : Option Bool)
    (t : Option String) (r : Row) :
    regexRowMatch m (setDel b t r) = regexRowMatch m r := by
  unfold regexRowMatch
  rw [colVal_setDel]

/-! ## The cooperative deadline scan. -/

theorem scanRows_ok (m : String → Bool) (ts : Nat) (clock : Nat → Nat) :
    ∀ (l : List Row) (k : Nat), (∀ i, i < l.length → clock (k + i) ≤ ts) →
    scanRows m ts clock k l = .ok (l.filter (regexRowMatch m)) := by
  intro l
  induction l with
  | nil => intro k _; simp [scanRows]
  | cons r rest ih =>
    intro k h
    have h0 : clock k ≤ ts := by simpa using h 0 (by simp)
    have hrec := ih (k + 1) (fun i hi => by
      have := h (i + 1) (by simpa using Nat.succ_lt_succ hi)
      simpa [Nat.add_assoc, Nat.add_comm 1 i] using this)
    simp only [scanRows, Nat.not_lt.mpr h0, if_neg (by omega : ¬ clock k > ts), hrec]
    cases hm : regexRowMatch m r <;> simp [List.filter_cons, hm] <;> rfl

theorem scanRows_timeout (m : String → Bool) (ts : Nat) (clock : Nat → Nat) :
    ∀ (l : List Row) (k : Nat), (∃ i, i < l.length ∧ clock (k + i) > ts) →
    scanRows m ts clock k l = .error callbackOperationalError := by
  intro l
  induction l with
  | nil => rintro k ⟨i, hi, _⟩; simp at hi
  | cons r rest ih =>
    rintro k ⟨i, hi, hc⟩
    by_cases h0 : clock k > ts
    · simp [scanRows, h0]
    · cases i with
      | zero => simp at hc; omega
      | succ j =>
        have : scanRows m ts clock (k + 1) rest = .error callbackOperationalError := by
          refine ih (k + 1) ⟨j, by simpa using Nat.lt_of_succ_lt_succ hi, ?_⟩
          have : k + 1 + j = k + (j + 1) := by omega
          rw [this]; exact hc
        simp only [scanRows]
        rw [if_neg h0, this]
        rfl

/-- The timeout message and the invalid-pattern message are distinct, whatever
text the host regex engine contributes. -/
theorem timeoutMsg_ne_invalid (ts : Nat) (e : String) :
    timeoutMsg ts ≠ invalidPatternMsg e := by
  intro h
  have hdata := congrArg String.data h
  simp only [timeoutMsg, invalidPatternMsg, String.data_append] at hdata
  simp only [List.cons_append, List.append_assoc] at hdata
  exact absurd (List.cons_eq_cons.mp hdata).1 (by decide)

/-- The wrapped callback-failure message and the invalid-pattern message are
distinct, whatever text the host regex engine contributes. -/
theorem dbCallbackMsg_ne_invalid (e : String) :
    dbErrorMsg callbackOperationalError ≠ invalidPatternMsg e := by
  intro h
  have hdata := congrArg String.data h
  simp only [dbErrorMsg, callbackOperationalError, invalidPatternMsg,
    String.data_append] at hdata
  simp only [List.cons_append, List.append_assoc] at hdata
  exact absurd (List.cons_eq_cons.mp hdata).1 (by decide)

/-- The wrapped callback-failure message and the timeout message are distinct
for every timeout value: the caller can tell them apart, but the former does
not identify a timeout. -/
theorem dbCallbackMsg_ne_timeout (ts : Nat) :
    dbErrorMsg callbackOperationalError ≠ timeoutMsg ts := by
  intro h
  have hdata := congrArg String.data h
  simp only [dbErrorMsg, callbackOperationalError, timeoutMsg,
    String.data_append] at hdata
  simp only [List.cons_append, List.append_assoc] at hdata
  exact absurd (List.cons_eq_cons.mp hdata).1 (by decide)

/-! ## Key uniqueness facts. -/

theorem filter_eq_single_of_nodupKeys {db : Table} {r : Row} {q : Row → Bool}
    (hnd : nodupKeys db) (hr : r ∈ db) (hq : q r = true)
    (himp : ∀ x ∈ db, q x = true → x.key = r.key) :
    db.filter q = [r] := by
  induction db with
  | nil => simp at hr
  | cons d rest ih =>
    have hnd' : d.key ∉ rest.map Row.key ∧ nodupKeys rest := by
      simpa [nodupKeys] using hnd
    rcases List.mem_cons.mp hr with rfl | hmem
    · have hrest : rest.filter q = [] := by
        rw [List.filter_eq_nil_iff]
        intro x hx hqx
        exact hnd'.1 (himp x (by simp [hx]) hqx ▸ List.mem_map_of_mem Row.key hx)
      simp [List.filter_cons, hq, hrest]
    · have hqd : q d = false := by
        by_contra hqd
        have : d.key = r.key := himp d (by simp) (by simpa using hqd)
        exact hnd'.1 (this ▸ List.mem_map_of_mem Row.key hmem)
      rw [List.filter_cons_of_neg (by simp [hqd])]
      exact ih hnd'.2 hmem (fun x hx hqx => himp x (by simp [hx]) hqx)

theorem nodupKeys_upsert (db : Table) (c : IssueContent) (now : String)
    (h : nodupKeys db) : nodupKeys (upsertIssueWithStats db c now).2 := by
  simp only [upsertIssueWithStats, nodupKeys, List.map_append]
  rw [List.nodup_append]
  refine ⟨?_, by simp, ?_⟩
  · exact List.Nodup.sublist ((List.filter_sublist db).map Row.key) h
  · intro x hx hy
    have hy' : x = c.key := by simpa [rowOfContent] using hy
    obtain ⟨r, hr, hrk⟩ := List.mem_map.mp hx
    have hne := (List.mem_filter.mp hr).2
    simp only [decide_eq_true_eq, ne_eq] at hne
    exact hne (hrk.trans hy')

/-! ## Behaviour of the operator splitter on well-formed conditions.

For whitespace-free tokens `f`, `o`, `v`, splitting `"f o v"` on the pattern
`\s+o\s+` yields exactly `[f, v]`. -/

theorem wsFree_cons {c : Char} {l : List Char} (h : wsFree (c :: l) = true) :
    c.isWhitespace = false ∧ wsFree l = true := by
  simp only [wsFree, List.all_cons, Bool.and_eq_true, Bool.not_eq_true'] at h ⊢
  exact h

theorem splitStep_not_ws {op : List Char} {c : Char} {rest : List Char}
    (h : c.isWhitespace = false) : splitStep op (c :: rest) = none := by
  simp [splitStep, h]

theorem dropWhile_ws_of_wsFree {l : List Char} (h : wsFree l = true) :
    l.dropWhile Char.isWhitespace = l := by
  cases l with
  | nil => rfl
  | cons c l' =>
    rw [List.dropWhile_cons]
    simp [(wsFree_cons h).1]

theorem dropWhile_ws_append {o t : List Char} (hone : o ≠ []) (ho : wsFree o = true) :
    (o ++ t).dropWhile Char.isWhitespace = o ++ t := by
  cases o with
  | nil => exact absurd rfl hone
  | cons c o' =>
    rw [List.cons_append, List.dropWhile_cons]
    simp [(wsFree_cons ho).1]

theorem ciHasPref_self_append (o t : List Char) : ciHasPref o (o ++ t) = true := by
  induction o with
  | nil => rfl
  | cons c o' ih => simp [ciHasPref, ih]

theorem splitStep_sep {o v : List Char} (ho : wsFree o = true) (hone : o ≠ [])
    (hv : wsFree v = true) :
    splitStep o (' ' :: (o ++ ' ' :: v)) = some v := by
  simp only [splitStep]
  rw [if_pos (by decide : (' ' : Char).isWhitespace = true)]
  rw [dropWhile_ws_append hone ho, if_pos (ciHasPref_self_append o _)]
  rw [List.drop_left]
  simp [dropWhile_ws_of_wsFree hv]

theorem splitOpAux_scan {o : List Char} : ∀ (f : List Char), wsFree f = true →
    ∀ (m : Nat) (acc t : List Char),
    splitOpAux o (f.length + m) acc (f ++ t) = splitOpAux o m (f.reverse ++ acc) t := by
  intro f
  induction f with
  | nil => intro _ m acc t; simp
  | cons c f' ih =>
    intro hf m acc t
    obtain ⟨hc, hf'⟩ := wsFree_cons hf
    have hlen : (c :: f').length + m = (f'.length + m) + 1 := by
      simp [List.length_cons]; omega
    rw [hlen, List.cons_append]
    simp only [splitOpAux, splitStep_not_ws hc]
    rw [ih hf' m (c :: acc) t]
    simp

theorem splitOpAux_all_lit {o : List Char} : ∀ (v : List Char), wsFree v = true →
    ∀ (m : Nat) (acc : List Char),
    splitOpAux o (v.length + m) acc v = [acc.reverse ++ v] := by
  intro v
  induction v with
  | nil => intro _ m acc; simp [splitOpAux]
  | cons c v' ih =>
    intro hv m acc
    obtain ⟨hc, hv'⟩ := wsFree_cons hv
    have hlen : (c :: v').length + m = (v'.length + m) + 1 := by
      simp [List.length_cons]; omega
    rw [hlen]
    simp only [splitOpAux, splitStep_not_ws hc]
    rw [ih hv' m (c :: acc)]
    simp

theorem splitOpAux_sandwich {o f v : List Char} (hf : wsFree f = true)
    (ho : wsFree o = true) (hv : wsFree v = true) (hone : o ≠ []) :
    splitOpAux o (f.length + (1 + o.length + 1 + v.length)) []
      (f ++ ' ' :: (o ++ ' ' :: v)) = [f, v] := by
  rw [splitOpAux_scan f hf _ [] _]
  have hfuel : 1 + o.length + 1 + v.length = (o.length + 1 + v.length) + 1 := by omega
  rw [hfuel]
  simp only [splitOpAux, splitStep_sep ho hone hv]
  rw [List.append_nil, List.reverse_reverse]
  have hfuel2 : o.length + 1 + v.length = v.length + (o.length + 1) := by omega
  rw [hfuel2, splitOpAux_all_lit v hv (o.length + 1) []]
  simp

theorem toList_eq_nil_iff {s : String} : s.toList = [] ↔ s = "" := by
  constructor
  · intro h; exact String.ext h
  · intro h; rw [h]; rfl

theorem splitOp_sandwich (o f v : String) (hf : wsFree f.toList = true)
    (ho : wsFree o.toList = true) (hv : wsFree v.toList = true) (hone : o ≠ "") :
    splitOp o (f ++ " " ++ o ++ " " ++ v) = [f, v] := by
  unfold splitOp
  have htl : (f ++ " " ++ o ++ " " ++ v).toList =
      f.toList ++ ' ' :: (o.toList ++ ' ' :: v.toList) := by
    show (((f.toList ++ [' ']) ++ o.toList) ++ [' ']) ++ v.toList =
      f.toList ++ ' ' :: (o.toList ++ ' ' :: v.toList)
    simp
  rw [htl]
  have hlen : (f.toList ++ ' ' :: (o.toList ++ ' ' :: v.toList)).length =
      f.toList.length + (1 + o.toList.length + 1 + v.toList.length) := by
    simp; omega
  rw [hlen, splitOpAux_sandwich hf ho hv (fun h => hone (toList_eq_nil_iff.mp h))]
  rfl

theorem wsFree_reverse {l : List Char} (h : wsFree l = true) :
    wsFree l.reverse = true := by
  simpa [wsFree, List.all_eq_true] using fun c hc =>
    (by simpa [wsFree, List.all_eq_true] using h : ∀ c ∈ l, ¬c.isWhitespace = true) c
      (List.mem_reverse.mp hc)

theorem pyStripL_wsFree {l : List Char} (h : wsFree l = true) : pyStripL l = l := by
  unfold pyStripL
  rw [dropWhile_ws_of_wsFree h, dropWhile_ws_of_wsFree (wsFree_reverse h),
    List.reverse_reverse]

theorem pyStrip_wsFree (s : String) (h : wsFree s.toList = true) : pyStrip s = s := by
  unfold pyStrip
  rw [pyStripL_wsFree h]
  exact String.ext rfl

/-! ## Value-independence of the compiled SQL text, per operator class. -/

theorem map_const_len {α β : Type} {l₁ l₂ : List α} (b : β) (h : l₁.length = l₂.length) :
    l₁.map (fun _ => b) = l₂.map (fun _ => b) := by
  rw [List.map_const', List.map_const', h]

theorem parseOp_render_scalar {jqlOp sqlOp : String}
    (hws : wsFree jqlOp.toList = true) (hne : jqlOp ≠ "")
    (hin : sqlOp ≠ "IN") (hlike : sqlOp ≠ "LIKE")
    {fld v₁ v₂ : String} {sc₁ sc₂ : SqlCond}
    (hf : wsFree fld.toList = true)
    (hv₁ : wsFree v₁.toList = true) (hv₂ : wsFree v₂.toList = true)
    (hn₁ : pyLower (dropQuotes v₁) ≠ "null") (hn₂ : pyLower (dropQuotes v₂) ≠ "null")
    (hp₁ : parseOperatorCondition (fld ++ " " ++ jqlOp ++ " " ++ v₁) jqlOp sqlOp = .ok sc₁)
    (hp₂ : parseOperatorCondition (fld ++ " " ++ jqlOp ++ " " ++ v₂) jqlOp sqlOp = .ok sc₂) :
    renderCond sc₁ = renderCond sc₂ := by
  simp only [parseOperatorCondition, splitOp_sandwich jqlOp fld v₁ hf hws hv₁ hne,
    splitOp_sandwich jqlOp fld v₂ hf hws hv₂ hne, pyStrip_wsFree fld hf,
    pyStrip_wsFree v₁ hv₁, pyStrip_wsFree v₂ hv₂] at hp₁ hp₂
  cases hmap : jqlFieldMapping (pyLower fld) with
  | none => rw [hmap] at hp₁; simp at hp₁
  | some col =>
    rw [hmap] at hp₁ hp₂
    simp only [if_neg hin, if_neg hlike, hn₁, hn₂, decide_False, Bool.false_and,
      Bool.false_eq_true, if_false] at hp₁ hp₂
    by_cases hcol : (col = "labels" ∨ col = "components") <;>
      by_cases h1 : sqlOp = "=" <;> by_cases h2 : sqlOp = "!=" <;>
      simp [hcol, h1, h2] at hp₁ hp₂ <;>
      subst hp₁ <;> subst hp₂ <;> simp [renderCond]

theorem parseOp_render_like {jqlOp : String}
    (hws : wsFree jqlOp.toList = true) (hne : jqlOp ≠ "")
    {fld v₁ v₂ : String} {sc₁ sc₂ : SqlCond}
    (hf : wsFree fld.toList = true)
    (hv₁ : wsFree v₁.toList = true) (hv₂ : wsFree v₂.toList = true)
    (hp₁ : parseOperatorCondition (fld ++ " " ++ jqlOp ++ " " ++ v₁) jqlOp "LIKE" = .ok sc₁)
    (hp₂ : parseOperatorCondition (fld ++ " " ++ jqlOp ++ " " ++ v₂) jqlOp "LIKE" = .ok sc₂) :
    renderCond sc₁ = renderCond sc₂ := by
  simp only [parseOperatorCondition, splitOp_sandwich jqlOp fld v₁ hf hws hv₁ hne,
    splitOp_sandwich jqlOp fld v₂ hf hws hv₂ hne, pyStrip_wsFree fld hf,
    pyStrip_wsFree v₁ hv₁, pyStrip_wsFree v₂ hv₂] at hp₁ hp₂
  cases hmap : jqlFieldMapping (pyLower fld) with
  | none => rw [hmap] at hp₁; simp at hp₁
  | some col =>
    rw [hmap] at hp₁ hp₂
    simp only [if_neg (by decide : ¬("LIKE" : String) = "IN"), if_pos rfl,
      ite_true, if_true, eq_self_iff_true, Except.ok.injEq] at hp₁ hp₂
    subst hp₁
    subst hp₂
    simp [renderCond]

theorem parseOp_render_in {jqlOp : String}
    (hws : wsFree jqlOp.toList = true) (hne : jqlOp ≠ "")
    {fld v₁ v₂ : String} {sc₁ sc₂ : SqlCond}
    (hf : wsFree fld.toList = true)
    (hv₁ : wsFree v₁.toList = true) (hv₂ : wsFree v₂.toList = true)
    (harity : ((pyStrip (dropEnds v₁)).splitOn ",").length =
      ((pyStrip (dropEnds v₂)).splitOn ",").length)
    (hp₁ : parseOperatorCondition (fld ++ " " ++ jqlOp ++ " " ++ v₁) jqlOp "IN" = .ok sc₁)
    (hp₂ : parseOperatorCondition (fld ++ " " ++ jqlOp ++ " " ++ v₂) jqlOp "IN" = .ok sc₂) :
    renderCond sc₁ = renderCond sc₂ := by
  simp only [parseOperatorCondition, splitOp_sandwich jqlOp fld v₁ hf hws hv₁ hne,
    splitOp_sandwich jqlOp fld v₂ hf hws hv₂ hne, pyStrip_wsFree fld hf,
    pyStrip_wsFree v₁ hv₁, pyStrip_wsFree v₂ hv₂] at hp₁ hp₂
  cases hmap : jqlFieldMapping (pyLower fld) with
  | none => rw [hmap] at hp₁; simp at hp₁
  | some col =>
    rw [hmap] at hp₁ hp₂
    simp only [if_pos rfl] at hp₁ hp₂
    by_cases hpar₁ : (pyStartsWith v₁ "(" && pyEndsWith v₁ ")") = true
    · by_cases hpar₂ : (pyStartsWith v₂ "(" && pyEndsWith v₂ ")") = true
      · simp only [hpar₁, hpar₂, if_true] at hp₁ hp₂
        have hlen :
            (((pyStrip (dropEnds v₁)).splitOn ",").map
              (fun v => dropQuotes (pyStrip v))).length =
            (((pyStrip (dropEnds v₂)).splitOn ",").map
              (fun v => dropQuotes (pyStrip v))).length := by
          simp [harity]
        by_cases hcol : (col = "labels" ∨ col = "components")
        · rw [if_pos hcol] at hp₁ hp₂
          simp only [Except.ok.injEq] at hp₁ hp₂
          subst hp₁ hp₂
          simp only [renderCond]
          rw [map_const_len _ hlen]
        · rw [if_neg hcol] at hp₁ hp₂
          simp only [Except.ok.injEq] at hp₁ hp₂
          subst hp₁ hp₂
          simp only [renderCond]
          rw [map_const_len _ hlen]
      · simp [hpar₂] at hp₂
    · simp [hpar₁] at hp₁

/-! ## Remaining helper lemmas for the claims. -/

theorem nodupKeys_foldl (ops : List (IssueContent × String)) :
    ∀ db : Table, nodupKeys db →
    nodupKeys (ops.foldl (fun d p => (upsertIssueWithStats d p.1 p.2).2) db) := by
  induction ops with
  | nil => intro db h; exact h
  | cons op rest ih =>
    intro db h
    exact ih _ (nodupKeys_upsert db op.1 op.2 h)

theorem filter_key_len_le_one {k : String} :
    ∀ {db : Table}, nodupKeys db →
    (db.filter (fun r => r.key = k)).length ≤ 1 := by
  intro db
  induction db with
  | nil => intro _; simp
  | cons d rest ih =>
    intro h
    have h' : d.key ∉ rest.map Row.key ∧ nodupKeys rest := by
      simpa [nodupKeys] using h
    by_cases hd : d.key = k
    · have hrest : rest.filter (fun r => r.key = k) = [] := by
        rw [List.filter_eq_nil_iff]
        intro x hx hqx
        simp only [decide_eq_true_eq] at hqx
        exact h'.1 ((hd.trans hqx.symm) ▸ List.mem_map_of_mem Row.key hx)
      simp [List.filter_cons, hd, hrest]
    · rw [List.filter_cons_of_neg (by simp [hd])]
      exact ih h'.2

/-! # Claims -/

/-- C10: `mark_issue_deleted(k)` is the keyed UPDATE
`SET is_deleted = TRUE, deleted_at = now WHERE key = k`: it maps every row
through a per-row update that (i) leaves rows with a different key untouched,
(ii) on the matching row sets exactly `is_deleted` and `deleted_at` and
nothing else (the two rows agree after erasing those columns), and (iii) when
no row carries key `k` the store is returned entirely unchanged; the
operation is total, so no error is raised in that case. -/
theorem claim_C10 (db : Table) (k now : String) :
    markIssueDeleted db k now = db.map (markRow k now) ∧
    (∀ r : Row, r.key ≠ k → markRow k now r = r) ∧
    (∀ r : Row, r.key = k →
      markRow k now r = { r with is_deleted := some true, deleted_at := some now }) ∧
    (∀ r : Row, clearDel (markRow k now r) = clearDel r) ∧
    ((∀ r ∈ db, r.key ≠ k) → markIssueDeleted db k now = db) := by
  refine ⟨rfl, ?_, ?_, ?_, ?_⟩
  · intro r h; simp [markRow, h]
  · intro r h; simp [markRow, h]
  · intro r; unfold markRow clearDel; split <;> rfl
  · intro h
    unfold markIssueDeleted
    calc db.map (markRow k now) = db.map id :=
          List.map_congr_left (fun r hr => by simp [markRow, h r hr])
      _ = db := List.map_id db

/-- C10 witness: marking a missing key leaves a concrete store unchanged, and
marking the present key rewrites only the two soft-delete columns. -/
theorem claim_C10_witness :
    markIssueDeleted [rowY2] "X-9" "2024-03-01T00:00:00" = [rowY2] ∧
    markRow "Y-2" "2024-03-01T00:00:00" rowY2 =
      { rowY2 with
        is_deleted := some true
        deleted_at := some "2024-03-01T00:00:00" } := by
  refine ⟨(claim_C10 [rowY2] "X-9" "2024-03-01T00:00:00").2.2.2.2 (by decide), ?_⟩
  exact (claim_C10 [rowY2] "Y-2" "2024-03-01T00:00:00").2.2.1 rowY2 (by decide)

/-- C4: the upsert reports whether a row with the key already existed, the
stored row for the key afterwards is exactly the freshly built row (every
listed column from the new content, defaults for the rest — no merge), other
rows are preserved, key uniqueness is preserved, and after any sequence of
upserts starting from a store with unique keys at most one row per key
exists. -/
theorem claim_C4 (db : Table) (c : IssueContent) (now : String) :
    ((upsertIssueWithStats db c now).1 = true ↔ ∃ r ∈ db, r.key = c.key) ∧
    ((upsertIssueWithStats db c now).2.filter (fun r => r.key = c.key) =
      [rowOfContent c now]) ∧
    (∀ r ∈ (upsertIssueWithStats db c now).2, r.key ≠ c.key → r ∈ db) ∧
    (nodupKeys db → nodupKeys (upsertIssueWithStats db c now).2) ∧
    (∀ ops : List (IssueContent × String), nodupKeys db → ∀ k : String,
      ((ops.foldl (fun d p => (upsertIssueWithStats d p.1 p.2).2) db).filter
        (fun r => r.key = k)).length ≤ 1) := by
  refine ⟨?_, ?_, ?_, nodupKeys_upsert db c now, ?_⟩
  · simp [upsertIssueWithStats, List.any_eq_true]
  · simp only [upsertIssueWithStats]
    rw [List.filter_append]
    have h1 : (db.filter (fun r => r.key ≠ c.key)).filter (fun r => r.key = c.key) = [] := by
      rw [List.filter_eq_nil_iff]
      intro x hx hqx
      simp only [decide_eq_true_eq] at hqx
      have := (List.mem_filter.mp hx).2
      simp only [decide_eq_true_eq, ne_eq] at this
      exact this hqx
    have h2 : ([rowOfContent c now] : Table).filter (fun r => r.key = c.key) =
        [rowOfContent c now] := by
      simp [rowOfContent]
    rw [h1, h2, List.nil_append]
  · intro r hr hk
    rcases List.mem_append.mp hr with hmem | hmem
    · exact (List.mem_filter.mp hmem).1
    · have : r = rowOfContent c now := by simpa using hmem
      exact absurd (this ▸ rfl) hk
  · intro ops hnd k
    exact filter_key_len_le_one (nodupKeys_foldl ops db hnd)

/-- C4 witness: a second upsert of `X-1` with a different summary reports the
row as existing and fully replaces the stored content. -/
theorem claim_C4_witness :
    ((upsertIssueWithStats [rowOfContent { rowX1content with summary := "old" } "t0"]
      rowX1content "t1").1 = true ↔
      ∃ r ∈ [rowOfContent { rowX1content with summary := "old" } "t0"],
        r.key = rowX1content.key) ∧
    (upsertIssueWithStats [rowOfContent { rowX1content with summary := "old" } "t0"]
      rowX1content "t1").2.filter (fun r => r.key = rowX1content.key) =
      [rowOfContent rowX1content "t1"] ∧
    (([(rowX1content, "t2")].foldl (fun d p => (upsertIssueWithStats d p.1 p.2).2)
      [rowOfContent { rowX1content with summary := "old" } "t0"]).filter
        (fun r => r.key = "X-1")).length ≤ 1 :=
  ⟨(claim_C4 [rowOfContent { rowX1content with summary := "old" } "t0"]
      rowX1content "t1").1,
   (claim_C4 [rowOfContent { rowX1content with summary := "old" } "t0"]
      rowX1content "t1").2.1,
   (claim_C4 [rowOfContent { rowX1content with summary := "old" } "t0"]
      rowX1content "t1").2.2.2.2 [(rowX1content, "t2")] (by simp [nodupKeys]) "X-1"⟩

/-- C5: a free-text query shaped like an exact issue key, when a non-deleted
row with that key exists (under the primary-key uniqueness invariant), is
answered by the direct `key = ?` lookup: the result is exactly that row with
total 1, for every FTS match function and rank order — the ranked relevance
search is bypassed. -/
theorem claim_C5 (ftsMatch : String → Row → Bool) (rankLe : Row → Row → Bool)
    (db : Table) (q : String) (limit offset : Int) (r : Row)
    (hkey : isExactKey (pyStrip q) = true) (hnd : nodupKeys db) (hr : r ∈ db)
    (hk : r.key = pyStrip q) (hnotdel : notDeleted r = true)
    (hlim : 1 ≤ limit) (hoff : offset = 0) :
    searchIssues ftsMatch rankLe db q limit offset = ([r], 1) := by
  subst hoff
  have hfilter : db.filter (fun x => x.key = pyStrip q && notDeleted x) = [r] := by
    refine filter_eq_single_of_nodupKeys hnd hr (by simp [hk, hnotdel]) ?_
    intro x hx hqx
    simp only [Bool.and_eq_true, decide_eq_true_eq] at hqx
    exact hqx.1.trans hk.symm
  have hpage : sqlPage limit 0 ([r] : List Row) = [r] := by
    simp only [sqlPage]
    rw [if_neg (by omega : ¬ limit < 0)]
    have : 1 ≤ limit.toNat := by omega
    cases hn : limit.toNat with
    | zero => omega
    | succ n => simp
  simp only [searchIssues, hfilter, hpage]
  rw [if_pos (by simp [hkey])]
  rfl

/-- C5 witness: the query `"Y-2"` on a one-row store returns the row by
direct key lookup. -/
theorem claim_C5_witness :
    searchIssues (fun _ _ => false) (fun _ _ => true) [rowY2] "Y-2" 100 0 =
      ([rowY2], 1) :=
  claim_C5 (fun _ _ => false) (fun _ _ => true) [rowY2] "Y-2" 100 0 rowY2
    (by decide) (by simp [nodupKeys]) (by decide) (by decide) (by decide)
    (by decide) rfl

/-- C8 counterexample: the compiled `~` predicate for `summary ~ hello`
matches a row whose summary is `Hello World`, although `hello` is not a
case-sensitive substring of `Hello World` — SQLite's default `LIKE` compares
ASCII letters case-insensitively, so the claim's "case-sensitive" reading is
false on the code. -/
theorem claim_C8_counterexample :
    parseJqlCondition "summary ~ hello" = .ok (.likeC "summary" "hello") ∧
    evalCond (.likeC "summary" "hello")
      (colVal { emptyRow with summary := "Hello World" }) = true ∧
    ¬ ("hello".toList <:+: "Hello World".toList) := by
  refine ⟨by rfl, by decide, by decide⟩

/-- C8 (amended): the compiled `~` predicate (`col LIKE ?` with parameter
`%value%`) on a wildcard-free value matches a row exactly when the column
text contains the value as an ASCII-case-insensitive substring (both sides
compared after SQLite's ASCII case folding); a NULL column never matches. -/
theorem claim_C8_amended (col v : String) (val : String → Option String) :
    (∀ s : String, val col = some s → noWild v.toList = true →
      (evalCond (.likeC col v) val = true ↔
        foldCase v.toList <:+: foldCase s.toList)) ∧
    (val col = none → evalCond (.likeC col v) val = false) := by
  constructor
  · intro s h hv
    simp only [evalCond]
    rw [h]
    exact likeC_ci_substring v s hv
  · intro h
    simp [evalCond, h, sqlLike]

/-- C8 witness: `summary ~ hello` matches the summary `Hello World`. -/
theorem claim_C8_amended_witness :
    evalCond (.likeC "summary" "hello")
      (colVal { emptyRow with summary := "Hello World" }) = true :=
  ((claim_C8_amended "summary" "hello"
      (colVal { emptyRow with summary := "Hello World" })).1
    "Hello World" (by decide) (by decide)).mpr (by decide)

/-- C3 counterexample: the 4-way pattern compiled for `labels = bet%` matches
the row whose labels column is the join of `["alpha", "beta", "gamma"]`, yet
`bet%` is not an element of that list — `%` acts as a `LIKE` wildcard inside
the compiled patterns, so the claim's unrestricted "if and only if an exact
element" reading is false on the code. -/
theorem claim_C3_counterexample :
    parseJqlCondition "labels = bet%" = .ok (.or4C "labels" "bet%") ∧
    evalCond (.or4C "labels" "bet%")
      (colVal { emptyRow with labels := some "alpha, beta, gamma" }) = true ∧
    joinCommaSpace ["alpha", "beta", "gamma"] = "alpha, beta, gamma" ∧
    ("bet%" ∉ (["alpha", "beta", "gamma"] : List String)) := by
  refine ⟨by rfl, by decide, by decide, by decide⟩

/-- C3 (amended): on a column holding the comma+space join of a list `L`, the
compiled 4-way disjunction for `=` on labels/components holds exactly when
the value is an element of `L`, and the compiled `!=` form is its exact
negation — provided the value is nonempty and the value and the elements
contain no `LIKE` wildcard, no comma and no ASCII uppercase letter (SQLite's
case-folding `LIKE` would otherwise let case variants match the first, last
and middle positions but not the exact-equality disjunct). -/
theorem claim_C3_amended (col v : String) (val : String → Option String)
    (L : List String) (hcol : val col = some (joinCommaSpace L)) (hv : v ≠ "")
    (hvp : ∀ c ∈ v.toList, plainChar c = true)
    (hLp : ∀ x ∈ L, ∀ c ∈ x.toList, plainChar c = true) :
    (evalCond (.or4C col v) val = true ↔ v ∈ L) ∧
    (evalCond (.not4C col v) val = true ↔ v ∉ L) := by
  have h4 := eval4_joinCommaSpace v L hv hvp hLp
  constructor
  · simp only [evalCond]
    rw [hcol]
    exact h4
  · rw [not4_eq_not_eval4 col v val _ hcol, hcol]
    cases he : eval4 (some (joinCommaSpace L)) v <;> simp [he] at h4 ⊢
    · exact h4
    · exact h4

/-- C3 witness: with labels `alpha, beta, gamma`, the filter `labels = beta`
matches and `labels = bet` does not. -/
theorem claim_C3_witness :
    evalCond (.or4C "labels" "beta")
      (colVal { emptyRow with labels := some "alpha, beta, gamma" }) = true ∧
    evalCond (.or4C "labels" "bet")
      (colVal { emptyRow with labels := some "alpha, beta, gamma" }) = false := by
  have hb := claim_C3_amended "labels" "beta"
    (colVal { emptyRow with labels := some "alpha, beta, gamma" })
    ["alpha", "beta", "gamma"] (by decide) (by decide) (by decide) (by decide)
  have hn := claim_C3_amended "labels" "bet"
    (colVal { emptyRow with labels := some "alpha, beta, gamma" })
    ["alpha", "beta", "gamma"] (by decide) (by decide) (by decide) (by decide)
  refine ⟨hb.1.mpr (by decide), ?_⟩
  cases he : evalCond (.or4C "labels" "bet")
      (colVal { emptyRow with labels := some "alpha, beta, gamma" }) with
  | false => rfl
  | true => exact absurd (hn.1.mp he) (by decide)

/-- C1 counterexample: a soft-deleted row is returned, and counted, by the
filter (jql) path — its SQL carries no `is_deleted` condition — while the
natural path excludes the same row. -/
theorem claim_C1_counterexample :
    searchJql [rowX1del] "key = X-1" 100 0 = .ok ([rowX1del], 1) ∧
    rowX1del.is_deleted = some true ∧
    searchIssues (fun _ _ => true) (fun _ _ => true) [rowX1del] "X-1" 100 0 =
      ([], 0) := by
  refine ⟨by rfl, by decide, by decide⟩

/-- C1 (amended): only the natural (free-text) path excludes soft-deleted
rows by default — every row of its page is non-deleted and its total counts
only non-deleted rows; the filter (jql) and pattern (regex) paths apply no
soft-delete filter: their compiled predicates are insensitive to the
`is_deleted`/`deleted_at` columns, and the jql total counts every matching
row regardless of deletion. -/
theorem claim_C1_amended :
    (∀ (fts : String → Row → Bool) (rank : Row → Row → Bool) (db : Table)
      (q : String) (l o : Int) (r : Row),
      r ∈ (searchIssues fts rank db q l o).1 → notDeleted r = true) ∧
    (∀ (fts : String → Row → Bool) (rank : Row → Row → Bool) (db : Table)
      (q : String) (l o : Int), ∃ p : Row → Bool,
      (searchIssues fts rank db q l o).2 =
        (db.filter (fun r => p r && notDeleted r)).length) ∧
    (∀ (c : SqlCond) (b : Option Bool) (t : Option String) (r : Row),
      evalCond c (colVal (setDel b t r)) = evalCond c (colVal r)) ∧
    (∀ (m : String → Bool) (b : Option Bool) (t : Option String) (r : Row),
      regexRowMatch m (setDel b t r) = regexRowMatch m r) ∧
    (∀ (db : Table) (q : String) (l o : Int) (conds : List SqlCond)
      (page : List Row) (total : Nat), parseJql q = .ok conds →
      searchJql db q l o = .ok (page, total) →
      total = (db.filter (fun r => conds.all (fun c => evalCond c (colVal r)))).length) := by
  refine ⟨?_, ?_, evalCond_setDel, regexRowMatch_setDel, ?_⟩
  · intro fts rank db q l o r h
    simp only [searchIssues] at h
    split at h
    · have := (List.mem_filter.mp (mem_sqlPage h)).2
      simp only [Bool.and_eq_true] at this
      exact this.2
    · have := (List.mem_filter.mp ((mem_sortBy _ _ _).mp (mem_sqlPage h))).2
      simp only [Bool.and_eq_true] at this
      exact this.2
  · intro fts rank db q l o
    simp only [searchIssues]
    split
    · exact ⟨fun r => decide (r.key = pyStrip q), rfl⟩
    · exact ⟨fun r => fts (sanitizeFtsQuery q) r, rfl⟩
  · intro db q l o conds page total h1 h2
    simp only [searchJql, h1] at h2
    have := (Except.ok.injEq _ _ ).mp h2
    exact (Prod.mk.injEq _ _ _ _ ▸ this : _ ∧ _).2.symm

/-- C1 witness: the natural-path exclusion applied to a concrete store, and
the jql predicate's insensitivity to the soft-delete columns at a concrete
row. -/
theorem claim_C1_amended_witness :
    notDeleted rowY2 = true ∧
    evalCond (.cmpC "key" "=" "X-1")
        (colVal (setDel (some true) (some "d") rowX1del)) =
      evalCond (.cmpC "key" "=" "X-1") (colVal rowX1del) := by
  refine ⟨?_, claim_C1_amended.2.2.1 (.cmpC "key" "=" "X-1") (some true) (some "d") rowX1del⟩
  exact claim_C1_amended.1 (fun _ _ => true) (fun _ _ => true) [rowY2] "login" 10 0
    rowY2 (by decide)

/-- C6 counterexample: with a 1-second timeout and the clock already at 2
seconds at the first scan checkpoint, the deadline is exceeded during row
scanning, yet the surfaced error is the generic wrap of the
`OperationalError` into which sqlite3 swallows the callback's `RegexError` —
"Database error executing regex: user-defined function raised exception" —
and not the timeout message, so the caller cannot identify the failure as a
timeout.  The deadline checked "during row scanning" therefore does not
raise a caller-visible timeout condition, refuting the claim for every
scan-detected timeout. -/
theorem claim_C6_counterexample :
    searchRegex (.ok (fun _ => false)) 1 (fun _ => 2) [rowY2] 10 0 =
      .error (dbErrorMsg callbackOperationalError) ∧
    dbErrorMsg callbackOperationalError ≠ timeoutMsg 1 :=
  ⟨rfl, by decide⟩

/-- C6 amended: when any cooperative checkpoint of the pattern search — one
per row of the page scan inside the REGEXP callback, the explicit pre-count
check, one per row of the count scan inside the callback — observes elapsed
time beyond the configured timeout, the whole operation yields an error and
no partial rows; but a timeout observed at a page-scan callback checkpoint
surfaces as the wrapped generic message "Database error executing regex:
user-defined function raised exception" (sqlite3 swallows the callback's
exception), the timeout message "Regex search timed out after N seconds"
surfaces exactly from the explicit pre-count check, and a count-scan
callback timeout again surfaces as the generic wrap; an invalid pattern
yields the invalid-pattern error before any scan; and the three messages
are pairwise distinct for every engine-supplied text, though only the
explicit check's message identifies a timeout. -/
theorem claim_C6_amended (m : String → Bool) (e : String) (ts : Nat)
    (clock : Nat → Nat) (db : Table) (limit offset : Int)
    (h : ∃ k, k ≤ 2 * db.length ∧ clock k > ts) :
    (searchRegex (.ok m) ts clock db limit offset =
        .error (dbErrorMsg callbackOperationalError) ∨
      searchRegex (.ok m) ts clock db limit offset = .error (timeoutMsg ts)) ∧
    ((∃ i, i < db.length ∧ clock i > ts) →
      searchRegex (.ok m) ts clock db limit offset =
        .error (dbErrorMsg callbackOperationalError)) ∧
    ((∀ i, i < db.length → clock i ≤ ts) → clock db.length > ts →
      searchRegex (.ok m) ts clock db limit offset = .error (timeoutMsg ts)) ∧
    ((∀ i, i ≤ db.length → clock i ≤ ts) →
      searchRegex (.ok m) ts clock db limit offset =
        .error (dbErrorMsg callbackOperationalError)) ∧
    searchRegex (.error e) ts clock db limit offset =
      .error (invalidPatternMsg e) ∧
    timeoutMsg ts ≠ invalidPatternMsg e ∧
    dbErrorMsg callbackOperationalError ≠ invalidPatternMsg e ∧
    dbErrorMsg callbackOperationalError ≠ timeoutMsg ts := by
  have hpageT : (∃ i, i < db.length ∧ clock i > ts) →
      searchRegex (.ok m) ts clock db limit offset =
        .error (dbErrorMsg callbackOperationalError) := by
    rintro ⟨i, hi, hc⟩
    have herr := scanRows_timeout m ts clock db 0 ⟨i, hi, by simpa using hc⟩
    simp only [searchRegex, herr]
  have hpreT : (∀ i, i < db.length → clock i ≤ ts) → clock db.length > ts →
      searchRegex (.ok m) ts clock db limit offset = .error (timeoutMsg ts) := by
    intro hsc hpre
    have hok := scanRows_ok m ts clock db 0 (fun i hi => by simpa using hsc i hi)
    simp only [searchRegex, hok, if_pos hpre]
  have hcntT : (∀ i, i ≤ db.length → clock i ≤ ts) →
      searchRegex (.ok m) ts clock db limit offset =
        .error (dbErrorMsg callbackOperationalError) := by
    intro hsc
    obtain ⟨k, hk, hck⟩ := h
    have hkbig : db.length + 1 ≤ k := by
      by_contra hlt
      have := hsc k (by omega)
      omega
    have hok := scanRows_ok m ts clock db 0
      (fun i hi => by simpa using hsc i (by omega))
    have hpre : ¬ clock db.length > ts := by
      have := hsc db.length (le_refl _)
      omega
    have herr := scanRows_timeout m ts clock db (db.length + 1)
      ⟨k - db.length - 1, by omega,
        by
          have heq : db.length + 1 + (k - db.length - 1) = k := by omega
          rw [heq]
          exact hck⟩
    simp only [searchRegex, hok, if_neg hpre, herr]
  refine ⟨?_, hpageT, hpreT, hcntT, rfl, timeoutMsg_ne_invalid ts e,
    dbCallbackMsg_ne_invalid e, dbCallbackMsg_ne_timeout ts⟩
  by_cases hpage : ∃ i, i < db.length ∧ clock i > ts
  · exact Or.inl (hpageT hpage)
  · push_neg at hpage
    by_cases hpre : clock db.length > ts
    · exact Or.inr (hpreT hpage hpre)
    · refine Or.inl (hcntT ?_)
      intro i hi
      rcases Nat.lt_or_ge i db.length with h' | h'
      · exact hpage i h'
      · have : i = db.length := by omega
        subst this
        omega

/-- C6 amended witness: with a 1-second timeout, a one-row table and a clock
at 2 seconds at every checkpoint, the search fails with the wrapped generic
message; the instantiated theorem also yields the invalid-pattern behaviour
and the pairwise distinctness of the three messages. -/
theorem claim_C6_amended_witness :
    (searchRegex (.ok (fun _ => false)) 1 (fun _ => 2) [rowY2] 10 0 =
        .error (dbErrorMsg callbackOperationalError) ∨
      searchRegex (.ok (fun _ => false)) 1 (fun _ => 2) [rowY2] 10 0 =
        .error (timeoutMsg 1)) ∧
    ((∃ i, i < ([rowY2] : Table).length ∧ 2 > 1) →
      searchRegex (.ok (fun _ => false)) 1 (fun _ => 2) [rowY2] 10 0 =
        .error (dbErrorMsg callbackOperationalError)) ∧
    ((∀ i, i < ([rowY2] : Table).length → 2 ≤ 1) → 2 > 1 →
      searchRegex (.ok (fun _ => false)) 1 (fun _ => 2) [rowY2] 10 0 =
        .error (timeoutMsg 1)) ∧
    ((∀ i, i ≤ ([rowY2] : Table).length → 2 ≤ 1) →
      searchRegex (.ok (fun _ => false)) 1 (fun _ => 2) [rowY2] 10 0 =
        .error (dbErrorMsg callbackOperationalError)) ∧
    searchRegex (.error "bad") 1 (fun _ => 2) [rowY2] 10 0 =
      .error (invalidPatternMsg "bad") ∧
    timeoutMsg 1 ≠ invalidPatternMsg "bad" ∧
    dbErrorMsg callbackOperationalError ≠ invalidPatternMsg "bad" ∧
    dbErrorMsg callbackOperationalError ≠ timeoutMsg 1 :=
  claim_C6_amended (fun _ => false) "bad" 1 (fun _ => 2) [rowY2] 10 0
    ⟨0, by decide, by decide⟩

/-- C9 counterexample: a call through the query router with offset `-5`
executes and returns results instead of failing with an error — neither the
router nor the SQL layer rejects a negative offset (SQLite treats it as
zero), so the claim's "offset below zero causes the call to fail" is false
on the code. -/
theorem claim_C9_counterexample :
    advancedSearch (fun _ _ => false) (fun _ _ => true) (.ok (fun _ => false)) 5
      (fun _ => 0) [rowY2] "Y-2" "natural" 100 (-5) = .ok ([rowY2], 1) := by
  rfl

/-- C9 (amended): limit clamping lives only in the web layer
(`min(requested, max_results)`); the router itself dispatches natural-mode
calls unconditionally with no validation of limit or offset; a negative
offset is not an error — the page computation behaves exactly as with offset
zero; and an unknown mode is a hard error. -/
theorem claim_C9_amended :
    (∀ l m : Int, apiSearchLimit l m = min l m ∧ apiSearchLimit l m ≤ m) ∧
    (∀ (fts : String → Row → Bool) (rank : Row → Row → Bool)
      (comp : Except String (String → Bool)) (ts : Nat) (clock : Nat → Nat)
      (db : Table) (q : String) (limit offset : Int),
      advancedSearch fts rank comp ts clock db q "natural" limit offset =
        .ok (searchIssues fts rank db q limit offset)) ∧
    (∀ (fts : String → Row → Bool) (rank : Row → Row → Bool) (db : Table)
      (q : String) (limit offset : Int), offset < 0 →
      searchIssues fts rank db q limit offset = searchIssues fts rank db q limit 0) ∧
    (∀ (fts : String → Row → Bool) (rank : Row → Row → Bool)
      (comp : Except String (String → Bool)) (ts : Nat) (clock : Nat → Nat)
      (db : Table) (q mode : String) (limit offset : Int),
      mode ≠ "natural" → mode ≠ "jql" → mode ≠ "regex" →
      advancedSearch fts rank comp ts clock db q mode limit offset =
        .error ("Unsupported search mode: " ++ mode)) := by
  refine ⟨fun l m => ⟨rfl, min_le_right l m⟩, ?_, ?_, ?_⟩
  · intro fts rank comp ts clock db q limit offset
    simp [advancedSearch]
  · intro fts rank db q limit offset h
    have hrw : ∀ (lim : Int) (lst : List Row), sqlPage lim offset lst = sqlPage lim 0 lst :=
      fun lim lst => sqlPage_neg_offset lim offset lst h
    simp only [searchIssues, hrw]
  · intro fts rank comp ts clock db q mode limit offset h1 h2 h3
    unfold advancedSearch
    rw [if_neg h1, if_neg h2, if_neg h3]

/-- C9 witness: the router executes a negative-offset natural search as if
the offset were zero, and rejects an unknown mode. -/
theorem claim_C9_amended_witness :
    searchIssues (fun _ _ => false) (fun _ _ => true) [rowY2] "Y-2" 100 (-5) =
      searchIssues (fun _ _ => false) (fun _ _ => true) [rowY2] "Y-2" 100 0 ∧
    advancedSearch (fun _ _ => false) (fun _ _ => true) (.ok (fun _ => false)) 5
      (fun _ => 0) [rowY2] "Y-2" "fuzzy" 100 0 =
      .error ("Unsupported search mode: " ++ "fuzzy") :=
  ⟨claim_C9_amended.2.2.1 (fun _ _ => false) (fun _ _ => true) [rowY2] "Y-2" 100 (-5)
      (by omega),
   claim_C9_amended.2.2.2 (fun _ _ => false) (fun _ _ => true) (.ok (fun _ => false)) 5
      (fun _ => 0) [rowY2] "Y-2" "fuzzy" 100 0 (by decide) (by decide) (by decide)⟩

/-- C2 counterexample: `assignee = null` and `assignee = bob` have the same
field and operator but different values, yet compile to different SQL texts
(`IS NULL` versus `= ?`), so the claim's unconditional "identical SQL
string" is false on the code. (The value text still never reaches the SQL
string.) -/
theorem claim_C2_counterexample :
    parseJqlCondition "assignee = null" = .ok (.isNullC "assignee_display_name") ∧
    parseJqlCondition "assignee = bob" =
      .ok (.cmpC "assignee_display_name" "=" "bob") ∧
    renderCond (.isNullC "assignee_display_name") ≠
      renderCond (.cmpC "assignee_display_name" "=" "bob") := by
  refine ⟨by rfl, by rfl, by decide⟩

/-- C2 (amended): for every operator of the table and whitespace-free field
and value tokens, the compiled SQL text does not depend on the value text —
two accepted conditions with the same field and operator compile to the
identical SQL string — except that the literal value `null` under `=`/`!=`
selects the `IS NULL`/`IS NOT NULL` form and that the number of `?`
placeholders of an `IN` list equals the number of supplied values; values
reach the plan only through the parameter list. -/
theorem claim_C2_amended (jqlOp sqlOp : String) (hop : (jqlOp, sqlOp) ∈ opTable)
    (fld v₁ v₂ : String) (sc₁ sc₂ : SqlCond)
    (hf : wsFree fld.toList = true)
    (hv₁ : wsFree v₁.toList = true) (hv₂ : wsFree v₂.toList = true)
    (hn₁ : pyLower (dropQuotes v₁) ≠ "null") (hn₂ : pyLower (dropQuotes v₂) ≠ "null")
    (harity : sqlOp = "IN" → ((pyStrip (dropEnds v₁)).splitOn ",").length =
      ((pyStrip (dropEnds v₂)).splitOn ",").length)
    (hp₁ : parseOperatorCondition (fld ++ " " ++ jqlOp ++ " " ++ v₁) jqlOp sqlOp = .ok sc₁)
    (hp₂ : parseOperatorCondition (fld ++ " " ++ jqlOp ++ " " ++ v₂) jqlOp sqlOp = .ok sc₂) :
    renderCond sc₁ = renderCond sc₂ := by
  simp only [opTable, List.mem_cons, List.not_mem_nil, or_false,
    Prod.mk.injEq] at hop
  rcases hop with ⟨ha, hb⟩ | ⟨ha, hb⟩ | ⟨ha, hb⟩ | ⟨ha, hb⟩ | ⟨ha, hb⟩ |
    ⟨ha, hb⟩ | ⟨ha, hb⟩ | ⟨ha, hb⟩ <;> subst ha <;> subst hb <;>
  first
    | exact parseOp_render_scalar (by decide) (by decide) (by decide) (by decide)
        hf hv₁ hv₂ hn₁ hn₂ hp₁ hp₂
    | exact parseOp_render_in (by decide) (by decide) hf hv₁ hv₂ (harity rfl) hp₁ hp₂
    | exact parseOp_render_like (by decide) (by decide) hf hv₁ hv₂ hp₁ hp₂

/-- C2 witness: `status = Open` and `status = Closed` compile to the same
SQL text. -/
theorem claim_C2_amended_witness :
    renderCond (.cmpC "status_name" "=" "Open") =
      renderCond (.cmpC "status_name" "=" "Closed") :=
  claim_C2_amended "=" "=" (by decide) "status" "Open" "Closed"
    (.cmpC "status_name" "=" "Open") (.cmpC "status_name" "=" "Closed")
    (by decide) (by decide) (by decide) (by decide) (by decide)
    (fun h => absurd h (by decide)) (by rfl) (by rfl)

/-- C7 counterexample: a configuration whose search-field list contains
`description` while the core list is `["key", "summary"]` passes validation —
the mismatch only produces a logged warning, not a `ConfigError` — so the
claim's "rejects the configuration at validation time" is false on the
code. -/
theorem claim_C7_counterexample :
    validateConfig (fun _ => true)
      ⟨some ⟨some "https://jira.example.com", some "u", some "p"⟩,
        some ⟨some "PROJ", none, some 100, some 100⟩,
        some ⟨some 1000, some 5⟩, [], none,
        some ⟨["key", "summary"], ["description"]⟩⟩ =
      .ok ["Search field 'description' is not in core fields list"] ∧
    ("description" ∉ (["key", "summary"] : List String)) := by
  refine ⟨by rfl, by decide⟩

/-- C7 (amended): a search field missing from the core fields only appends
the warning `Search field '...' is not in core fields list` (and only when
both lists are configured non-empty); the error list — and hence the
accept/reject decision, which rejects exactly when some error was recorded —
is unaffected by the search-field list. -/
theorem claim_C7_amended :
    (∀ (dx : String → Bool) (j : Option JiraSection) (sy : Option SyncSection)
      (se : Option SearchSection) (cf : List CustomField)
      (dbs : Option DatabaseSection) (core search : List String) (s : String),
      s ∈ search → s ∉ core → core ≠ [] →
      ("Search field '" ++ s ++ "' is not in core fields list") ∈
        (validateChecks dx ⟨j, sy, se, cf, dbs, some ⟨core, search⟩⟩).2) ∧
    (∀ (dx : String → Bool) (j : Option JiraSection) (sy : Option SyncSection)
      (se : Option SearchSection) (cf : List CustomField)
      (dbs : Option DatabaseSection) (core search₁ search₂ : List String),
      (validateChecks dx ⟨j, sy, se, cf, dbs, some ⟨core, search₁⟩⟩).1 =
        (validateChecks dx ⟨j, sy, se, cf, dbs, some ⟨core, search₂⟩⟩).1) ∧
    (∀ (dx : String → Bool) (cfg : ConfigData),
      (∃ w, validateConfig dx cfg = .ok w) ↔ (validateChecks dx cfg).1 = []) := by
  refine ⟨?_, ?_, ?_⟩
  · intro dx j sy se cf dbs core search s hs hnot hcore
    have hsearch : search ≠ [] := fun he => by simp [he] at hs
    simp only [validateChecks]
    refine List.mem_append_right _ ?_
    rw [if_pos (by simp [hsearch, hcore])]
    exact List.mem_map_of_mem _ (List.mem_filter.mpr ⟨hs, by simp [hnot]⟩)
  · intro dx j sy se cf dbs core search₁ search₂
    rfl
  · intro dx cfg
    unfold validateConfig
    by_cases h : (validateChecks dx cfg).1 = []
    · simp [h]
    · simp [h]

/-- C7 witness: a mismatched search field produces its warning in the
warning list of a concrete configuration. -/
theorem claim_C7_amended_witness :
    ("Search field 'description' is not in core fields list") ∈
      (validateChecks (fun _ => true)
        ⟨none, none, none, [], none,
          some ⟨["key", "summary"], ["description"]⟩⟩).2 :=
  claim_C7_amended.1 (fun _ => true) none none none [] none
    ["key", "summary"] ["description"] "description" (by decide) (by decide)
    (by decide)

end JiraSearch
